import Mathlib

/-!
Verification development for the csvwmetadata library (`src/__init__.py`).

The library exposes a `CommonProperties` store (a `UserDict` subclass whose
`__setattr__` / `__setitem__` validate every write), node classes `Table`,
`Schema`, `Column` built on it, a `Context` value, and helper functions
`prefixer`, `unprefixer`, `is_valid_prefix`, `is_absolute_uri`.

This file gives a shallow embedding of that code: Python values become the
inductive `Value`, a node's `self.data` dict and its instance attribute dict
become the two association lists of `Node`, and every mutation returns the
resulting node together with an optional raised exception (mutations that
raise after having already written to `self.data` therefore return the
partially-updated node, exactly as the Python object would retain it).
-/

namespace Csvw

/-- Python exception classes raised by the code under scrutiny. -/
inductive PyError where
  | valueError (msg : String)
  | attributeError (msg : String)
  | typeError (msg : String)
  | indexError
  | keyError (k : String)
deriving Repr, DecidableEq

/-- The three concrete node classes of the source. -/
inductive NodeKind where
  | table
  | schema
  | column
deriving Repr, DecidableEq

/-- Python values as stored in `self.data` and instance attributes.

`vdict` is a plain `dict`; `vnode k d a` is an instance of one of the node
classes with underlying `data` store `d` and instance-attribute dict `a`;
`vcontext opts` is a `Context` instance: `opts = []` models the bare
`"http://www.w3.org/ns/csvw"` form, a non-empty `opts` models the
two-element `[reference, {"@base": ..., "@language": ...}]` form. -/
inductive Value where
  | vstr : String → Value
  | vbool : Bool → Value
  | vnone : Value
  | vlist : List Value → Value
  | vdict : List (String × Value) → Value
  | vnode : NodeKind → List (String × Value) → List (String × Value) → Value
  | vcontext : List (String × Value) → Value
deriving Repr

/-- An insertion-ordered string-keyed mapping, modelling a Python `dict`. -/
abbrev Store := List (String × Value)

/-- Lookup in an association list (Python `d.get(k)` / `k in d`). -/
def alookup {α : Type} : List (String × α) → String → Option α
  | [], _ => none
  | (k', v) :: rest, k => if k' = k then some v else alookup rest k

/-- Update-or-append, modelling `d[k] = v` on an insertion-ordered dict:
an existing key keeps its position, a new key goes to the end. -/
def insertS {α : Type} : List (String × α) → String → α → List (String × α)
  | [], k, v => [(k, v)]
  | (k', v') :: rest, k, v =>
      if k' = k then (k, v) :: rest else (k', v') :: insertS rest k v

/-- A node's state: `data` models `self.data`, `attrs` models the plain
instance attributes written by `object.__setattr__` (excluding `data`). -/
structure Node where
  data : Store
  attrs : Store
deriving Repr

mutual

/-- Structural equality on values, modelling Python `==` on the shapes the
code compares (strings; used by the duplicate-name checks, which in Python
are `len(names) > len(set(names))`). -/
def vbeq : Value → Value → Bool
  | .vstr a, .vstr b => a == b
  | .vbool a, .vbool b => a == b
  | .vnone, .vnone => true
  | .vlist a, .vlist b => vbeqL a b
  | .vdict a, .vdict b => vbeqS a b
  | .vnode k1 d1 a1, .vnode k2 d2 a2 => k1 == k2 && vbeqS d1 d2 && vbeqS a1 a2
  | .vcontext a, .vcontext b => vbeqS a b
  | _, _ => false

/-- Pointwise equality of value lists. -/
def vbeqL : List Value → List Value → Bool
  | [], [] => true
  | x :: xs, y :: ys => vbeq x y && vbeqL xs ys
  | _, _ => false

/-- Pointwise equality of stores. -/
def vbeqS : List (String × Value) → List (String × Value) → Bool
  | [], [] => true
  | (k1, v1) :: xs, (k2, v2) :: ys => k1 == k2 && vbeq v1 v2 && vbeqS xs ys
  | _, _ => false

end

/-! ## String helpers of the source: `prefixer`, `unprefixer`,
`is_valid_prefix`, `is_absolute_uri` -/

/-- The character map underlying Python `key.replace("_", ":")`. -/
def prefChar (c : Char) : Char := if c = '_' then ':' else c

/-- The character map underlying Python `key.replace(":", "_")`. -/
def unprefChar (c : Char) : Char := if c = ':' then '_' else c

/-- Source `prefixer`: converts `prefix_name` into the JSON-LD form
`prefix:name` by replacing every underscore with a colon. -/
def prefixer (s : String) : String := String.mk (s.toList.map prefChar)

/-- Source `unprefixer`: converts `prefix:name` into the attribute sugar
`prefix_name` by replacing every colon with an underscore. -/
def unprefixer (s : String) : String := String.mk (s.toList.map unprefChar)

/-- The keys of the source's `_PREFIXES` table (the namespace URIs mapped to
are never consulted by the validation, only membership of the prefix). -/
def csvwPrefixList : List String :=
  ["as", "cc", "csvw", "ctag", "dc", "dc11", "dcat", "dcterms", "dctypes",
   "dqv", "duv", "foaf", "gr", "grddl", "ical", "ldp", "ma", "oa", "og",
   "org", "owl", "prov", "qb", "rdf", "rdfa", "rdfs", "rev", "rif", "rr",
   "schema", "sd", "sioc", "skos", "skosxl", "v", "vcard", "void", "wdr",
   "wrds", "xhv", "xsd"]

/-- Python `name in list` membership (string equality). -/
def containsStr : List String → String → Bool
  | [], _ => false
  | x :: xs, s => x == s || containsStr xs s

/-- Source `is_valid_prefix` (renamed here): `key.split(":")[0]` — the
substring before the first colon, or the whole string when there is no
colon — must be a key of `_PREFIXES`. -/
def prefixKnown (key : String) : Bool :=
  containsStr csvwPrefixList (String.mk (key.toList.takeWhile (fun c => !(c == ':'))))

/-- Splits a character list at its first colon: `some (pre, post)` with
`l = pre ++ ':' :: post` and no colon in `pre`, or `none` when `l` has no
colon. This models `url.find(':')` in Python's `urlsplit`. -/
def splitColon : List Char → Option (List Char × List Char)
  | [] => none
  | c :: cs =>
      if c = ':' then some ([], cs)
      else (splitColon cs).map (fun p => (c :: p.1, p.2))

/-- ASCII letter test, modelling `c.isascii() and c.isalpha()`. -/
def isAsciiAlpha (c : Char) : Bool :=
  ('a' ≤ c && c ≤ 'z') || ('A' ≤ c && c ≤ 'Z')

/-- Membership of `urllib`'s `scheme_chars` (letters, digits, `+`, `-`, `.`). -/
def isSchemeChar (c : Char) : Bool :=
  isAsciiAlpha c || ('0' ≤ c && c ≤ '9') || c = '+' || c = '-' || c = '.'

/-- Source `urlsplit`'s scheme test for the part before the first colon: non-empty,
first character an ASCII letter, every character a scheme character. -/
def schemeSplitOK : List Char → Bool
  | [] => false
  | c :: cs => isAsciiAlpha c && (c :: cs).all isSchemeChar

/-- Drops a leading `scheme:` as `urlsplit` does: only when the text before
the first colon passes `schemeSplitOK`. -/
def dropScheme (l : List Char) : List Char :=
  match splitColon l with
  | none => l
  | some (pre, post) => if schemeSplitOK pre then post else l

/-- The delimiters ending a netloc: `/`, `?`, `#`. -/
def nlStop (c : Char) : Bool := !(c == '/' || c == '?' || c == '#')

/-- The network-location component `urlparse(uri).netloc`, on a character
list: after optional scheme removal the remainder must start with `//`,
and the netloc runs to the next `/`, `?` or `#`. (Modelled for inputs
without whitespace, control characters or square brackets, which is all
the library ever passes.) -/
def netlocCharsL (l : List Char) : List Char :=
  match dropScheme l with
  | '/' :: '/' :: rest => rest.takeWhile nlStop
  | _ => []

/-- Source `urlparse(uri).netloc` of a string. -/
def netlocChars (s : String) : List Char := netlocCharsL s.toList

/-- Source `is_absolute_uri`: `bool(urlparse(uri).netloc)`. -/
def is_absolute_uri (s : String) : Bool := !(netlocChars s).isEmpty

/-! ## Per-kind allow-lists (`_valid_properties`) -/

/-- Source `InheritedProperties._inherited_properties`. -/
def inheritedProps : List String :=
  ["aboutUrl", "datatype", "default", "lang", "null", "ordered",
   "propertyUrl", "required", "separator", "textDirection", "valueUrl"]

/-- Source `Table._valid_properties` = inherited + `Table._common_properties`. -/
def tableValid : List String :=
  inheritedProps ++
    ["url", "notes", "dialect", "suppressOutput", "tableDirection",
     "tableSchema", "transformations", "id", "type"]

/-- Source `Schema._valid_properties` = inherited + `Schema._common_properties`. -/
def schemaValid : List String :=
  inheritedProps ++
    ["name", "columns", "foreignKeys", "primaryKey", "rowTitles", "id", "type"]

/-- Source `Column._valid_properties` = inherited + `Column._common_properties`. -/
def columnValid : List String :=
  inheritedProps ++
    ["name", "suppressOutput", "titles", "virtual", "id", "type"]

/-- The allow-list of each node kind. -/
def kindValid : NodeKind → List String
  | .table => tableValid
  | .schema => schemaValid
  | .column => columnValid

/-! ## Python truthiness, `Context`, and small helpers -/

/-- Python `bool(v)` for the values this model represents: empty strings,
lists, dicts and nodes (UserDicts) are falsy, `None` and `False` are falsy;
a `Context` is always truthy because its underlying data is either a
non-empty string or a two-element list. -/
def truthy : Value → Bool
  | .vstr s => !s.isEmpty
  | .vbool b => b
  | .vnone => false
  | .vlist l => !l.isEmpty
  | .vdict m => !m.isEmpty
  | .vnode _ d _ => !d.isEmpty
  | .vcontext _ => true

/-- Source `bool(d.get(key))`: a missing key yields `None`, hence falsy. -/
def truthyOpt : Option Value → Bool
  | some v => truthy v
  | none => false

/-- One entry of the `Context` options dict: `if base: context[1]["@base"] = base`
adds the entry only when the argument is truthy. -/
def optEntry (key : String) : Option Value → Store
  | some v => if truthy v then [(key, v)] else []
  | none => []

/-- Source `Context(base, language)`: when neither argument is truthy the bare
reference, otherwise the two-element form with the truthy overrides. -/
def contextMkV (base language : Option Value) : Value :=
  .vcontext (optEntry "@base" base ++ optEntry "@language" language)

/-- Source `Context(**value)` for a dict `value`, followed by the setter's
`isinstance(value, Context)` check: a dict may only carry the keyword
arguments `base` and `language` (anything else is a `TypeError`), a
`Context` passes through, anything else raises the setter's `ValueError`. -/
def contextCoerce : Value → Except PyError Value
  | .vdict m =>
      if m.all (fun kv => kv.1 == "base" || kv.1 == "language") then
        .ok (contextMkV (alookup m "base") (alookup m "language"))
      else .error (.typeError "unexpected keyword argument")
  | .vcontext opts => .ok (.vcontext opts)
  | _ => .error (.valueError "Value must be of type Context or dict.")

/-- Source `x.get("name")` on one element of a columns list: dicts and nodes
(UserDicts) support `.get`, anything else raises `AttributeError`. -/
def colGet (x : Value) (key : String) : Except PyError (Option Value) :=
  match x with
  | .vdict m => .ok (alookup m key)
  | .vnode _ d _ => .ok (alookup d key)
  | _ => .error (.attributeError "get")

/-- Source `[x.get("name") for x in columns if x.get("name") is not None]`.
Iterating anything but a list either yields elements without `.get`
(strings, dict keys — an `AttributeError`) or is not iterable at all. -/
def namesOf : Value → Except PyError (List Value)
  | .vlist l =>
      (l.mapM (fun x => colGet x "name")).map (fun os => os.filterMap id)
  | .vstr _ => .error (.attributeError "get")
  | .vdict _ => .error (.attributeError "get")
  | .vnode _ _ _ => .error (.attributeError "get")
  | _ => .error (.typeError "object is not iterable")

/-- Core of `len(names) > len(set(names))` for hashable elements: some value
occurs twice in the list.  `setDupCheck` below wraps this with the
`TypeError` that `set()` raises when an element is unhashable. -/
def hasDup : List Value → Bool
  | [] => false
  | x :: xs => xs.any (fun y => vbeq x y) || hasDup xs

/-! ## Property descriptors

Each node class defines `@property` getters/setters.  `object.__setattr__`
(reached through `super().__setattr__` in `CommonProperties.__setattr__`)
invokes the class's setter when one exists for the attribute name, and
otherwise writes a plain instance attribute.  Attribute reads likewise go
through the getter when one exists.  Every getter in the source is of the
form `return self.data[K]` for a fixed key `K`, recorded as `getKey`. -/

/-- The distinct setter behaviours appearing in the source. -/
inductive SetterKind where
  | plain (key : String)
  | notes
  | tableDirection
  | typeTable
  | contextS
  | columnsS
  | nameS
  | tableSchemaS
deriving Repr, DecidableEq

/-- The `self.data` key a setter writes on success. -/
def wkey : SetterKind → String
  | .plain k => k
  | .notes => "notes"
  | .tableDirection => "tableDirection"
  | .typeTable => "@type"
  | .contextS => "@context"
  | .columnsS => "columns"
  | .nameS => "name"
  | .tableSchemaS => "tableSchema"

/-- A property descriptor: its setter behaviour and the `self.data` key its
getter reads. -/
structure Descriptor where
  sk : SetterKind
  getKey : String
deriving Repr, DecidableEq

/-- Error message of `CommonProperties.__setattr__`'s rejection branch. -/
def cpErrMsg : String :=
  "Common properies must either be absolute URLs, or of the form prefix:name, where prefix must be defined within the CSVW context, see: https://w3c.github.io/csvw/metadata/#names-of-common-properties"

/-- Error message of the duplicate-column-name checks. -/
def dupMsg : String :=
  "The name properties of the column descriptions MUST be unique within a given table description."

/-- Error message of `Table.tableDirection`'s setter. -/
def dirMsg : String := "tableDirection must be one of 'rtl', 'ltr', or 'auto'."

/-- Source `value in ["rtl", "ltr", "auto"]` of `Table.tableDirection`'s setter. -/
def dirOK (v : Value) : Bool :=
  vbeq v (.vstr "rtl") || vbeq v (.vstr "ltr") || vbeq v (.vstr "auto")

/-- Python hashability of the modelled values: `str`, `bool` and `None` are
hashable; `list` and `dict` are not; the node classes are `UserDict`s whose
`Mapping` base sets `__hash__ = None`; `Context` is a `UserList`, which
defines `__eq__` without `__hash__` and is therefore unhashable too. -/
def hashableV : Value → Bool
  | .vstr _ => true
  | .vbool _ => true
  | .vnone => true
  | _ => false

/-- Message of the `TypeError` that `set()` raises at an unhashable element
(the quoted word is the element's class name).  The final arm covers the
hashable constructors, for which the message is never consulted. -/
def unhashMsg : Value → String
  | .vlist _ => "unhashable type: 'list'"
  | .vdict _ => "unhashable type: 'dict'"
  | .vnode .table _ _ => "unhashable type: 'Table'"
  | .vnode .schema _ _ => "unhashable type: 'Schema'"
  | .vnode .column _ _ => "unhashable type: 'Column'"
  | .vcontext _ => "unhashable type: 'Context'"
  | _ => ""

/-- Source `if len(names) > len(set(names)): raise ValueError(...)` as a
whole: `set(names)` iterates `names` and raises `TypeError` at the first
unhashable element; with every element hashable the comparison is true
exactly when some value occurs twice, raising the duplicate `ValueError`. -/
def setDupCheck (names : List Value) : Option PyError :=
  match names.find? (fun x => !hashableV x) with
  | some bad => some (.typeError (unhashMsg bad))
  | none => if hasDup names then some (.valueError dupMsg) else none

/-- All setter behaviours that do not construct a nested node.  The
`tableSchemaS` case is handled by `runSetter1` below (it builds a `Schema`
from a dict); it never occurs in the schema or column descriptor tables, so
the error arm here is unreachable for those kinds. -/
def runSetter0 : SetterKind → Store → Value → Except PyError Store
  | .plain key, d, v => .ok (insertS d key v)
  | .notes, d, v =>
      match v with
      | .vlist _ => .ok (insertS d "notes" v)
      | _ => .error (.valueError "notes property of Table object must be a list of strings.")
  | .tableDirection, d, v =>
      if dirOK v then .ok (insertS d "tableDirection" v)
      else .error (.valueError dirMsg)
  | .typeTable, d, v =>
      if vbeq v (.vstr "Table") then .ok (insertS d "@type" v)
      else .error (.valueError "Type property of Table object must be 'Table'.")
  | .contextS, d, v =>
      (contextCoerce v).map (fun v' => insertS d "@context" v')
  | .columnsS, d, v =>
      match v with
      | .vlist l =>
          (match alookup d "columns" with
           | none => .error (.keyError "columns")
           | some cur =>
               match namesOf cur with
               | .error e => .error e
               | .ok names =>
                   match setDupCheck names with
                   | some e => .error e
                   | none => .ok (insertS d "columns" (.vlist l)))
      | _ => .error (.valueError "columns property of Schema object must be a list of Column or dict objects.")
  | .nameS, d, v =>
      match v with
      | .vstr s =>
          (match s.toList with
           | [] => .error .indexError
           | c :: _ =>
               if c = '_' then
                 .error (.valueError "'name' attribute must not begin with an underscore '_'")
               else .ok (insertS d "name" v))
      | .vlist [] => .error .indexError
      | .vlist (x :: _) =>
          if vbeq x (.vstr "_") then
            .error (.valueError "'name' attribute must not begin with an underscore '_'")
          else .ok (insertS d "name" v)
      | _ => .error (.typeError "object is not subscriptable")
  | .tableSchemaS, _, _ => .error (.typeError "unreachable")

/-! Note on `columnsS`: the setter body reads `self.columns`, i.e. the
*current* `self.data["columns"]`.  When the setter is reached through
`CommonProperties.__setattr__`, that branch has already executed
`self.data[name] = value`, so the getter sees the value being assigned;
the duplicate check therefore runs over the incoming list.  The model
passes the pre-written store `d` to the setter, reproducing this. -/

/-- Table descriptors: `url`, `dialect`, `notes`, `suppressOutput`,
`tableDirection`, `tableSchema`, `id` (at `@id`), `type` (at `@type`),
`context` (from `TopLevelProperty`, at `@context`), and the inherited
properties. -/
def tableDT : List (String × Descriptor) :=
  [("url", ⟨.plain "url", "url"⟩),
   ("dialect", ⟨.plain "dialect", "dialect"⟩),
   ("notes", ⟨.notes, "notes"⟩),
   ("suppressOutput", ⟨.plain "suppressOutput", "suppressOutput"⟩),
   ("tableDirection", ⟨.tableDirection, "tableDirection"⟩),
   ("tableSchema", ⟨.tableSchemaS, "tableSchema"⟩),
   ("id", ⟨.plain "@id", "@id"⟩),
   ("type", ⟨.typeTable, "@type"⟩),
   ("context", ⟨.contextS, "@context"⟩)] ++
    inheritedProps.map (fun p => (p, ⟨.plain p, p⟩))

/-- Schema descriptors.  `Schema` declares no `id`/`type` properties; its
`foreignKeys` getter reads `self.data["columns"]` (the source's text), which
is recorded faithfully in `getKey`. -/
def schemaDT : List (String × Descriptor) :=
  [("columns", ⟨.columnsS, "columns"⟩),
   ("foreignKeys", ⟨.plain "foreignKeys", "columns"⟩),
   ("primaryKey", ⟨.plain "primaryKey", "primaryKey"⟩),
   ("rowTitles", ⟨.plain "rowTitles", "rowTitles"⟩),
   ("context", ⟨.contextS, "@context"⟩)] ++
    inheritedProps.map (fun p => (p, ⟨.plain p, p⟩))

/-- Column descriptors (no `id`/`type`/`context` properties). -/
def columnDT : List (String × Descriptor) :=
  [("name", ⟨.nameS, "name"⟩),
   ("suppressOutput", ⟨.plain "suppressOutput", "suppressOutput"⟩),
   ("titles", ⟨.plain "titles", "titles"⟩),
   ("virtual", ⟨.plain "virtual", "virtual"⟩)] ++
    inheritedProps.map (fun p => (p, ⟨.plain p, p⟩))

/-- Descriptor table of each node kind. -/
def kindDT : NodeKind → List (String × Descriptor)
  | .table => tableDT
  | .schema => schemaDT
  | .column => columnDT

/-! ## `__setattr__`, `__setitem__`, attribute and item reads -/

/-- Source `super().__setattr__(name, value)` = `object.__setattr__`: run the data
descriptor's setter when the class declares one for `name` (on failure the
exception propagates with `self.data` as the setter left it), otherwise set
a plain instance attribute. -/
def superSet (dt : List (String × Descriptor))
    (run : SetterKind → Store → Value → Except PyError Store)
    (n : Node) (name : String) (v : Value) : Node × Option PyError :=
  match alookup dt name with
  | some dsc =>
      (match run dsc.sk n.data v with
       | .ok d' => ({ n with data := d' }, none)
       | .error e => (n, some e))
  | none => ({ n with attrs := insertS n.attrs name v }, none)

/-- Source `CommonProperties.__setattr__`.  Branches, in source order: the `data`
attribute itself; the JSON-LD names `id`/`type`/`context` (written to the
`@`-prefixed key *before* `super().__setattr__` runs any validating
setter); names outside `_valid_properties` (validated via `prefixer`,
`is_valid_prefix`, `is_absolute_uri`); and allow-listed names (written to
`self.data[name]` *before* `super().__setattr__` runs any validating
setter).  For names outside the allow-list no class in the source declares
a descriptor (the only descriptor name outside an allow-list is `context`,
which the previous branch intercepts), so `super().__setattr__` there is a
plain instance-attribute write.  The `data` branch replaces the backing
store; it is modelled for dict values, the only values the source ever
assigns to `data` (`UserDict.__init__`). -/
def setattrCore (valid : List String) (dt : List (String × Descriptor))
    (run : SetterKind → Store → Value → Except PyError Store)
    (n : Node) (name : String) (v : Value) : Node × Option PyError :=
  if name = "data" then
    (match v with
     | .vdict m => ({ data := m, attrs := n.attrs }, none)
     | _ => (n, none))
  else if name = "id" ∨ name = "type" ∨ name = "context" then
    superSet dt run { n with data := insertS n.data ("@" ++ name) v } name v
  else if containsStr valid name then
    superSet dt run { n with data := insertS n.data name v } name v
  else
    if prefixKnown (prefixer name) || is_absolute_uri (prefixer name) then
      ({ data := insertS n.data (prefixer name) v,
         attrs := insertS n.attrs name v }, none)
    else (n, some (.valueError cpErrMsg))

/-- The attribute name `CommonProperties.__setitem__` computes for a key:
the key itself when allow-listed or absolute, otherwise its unprefixed
form. -/
def attrOfKey (valid : List String) (key : String) : String :=
  if containsStr valid key then key
  else if is_absolute_uri key then key
  else unprefixer key

/-- Source `CommonProperties.__setitem__`: `setattr(self, attr, item)` followed by
`super().__setitem__(key, item)` (a raw `self.data[key] = item`). -/
def setitemCore (valid : List String) (dt : List (String × Descriptor))
    (run : SetterKind → Store → Value → Except PyError Store)
    (n : Node) (key : String) (item : Value) : Node × Option PyError :=
  match setattrCore valid dt run n (attrOfKey valid key) item with
  | (n', some e) => (n', some e)
  | (n', none) => ({ n' with data := insertS n'.data key item }, none)

/-- Attribute read: the class's property getter when one exists (each reads
a fixed `self.data` key, raising `KeyError` when absent), otherwise the
instance attribute (raising `AttributeError` when absent). -/
def getattrCore (dt : List (String × Descriptor)) (n : Node) (name : String) :
    Except PyError Value :=
  match alookup dt name with
  | some dsc =>
      (match alookup n.data dsc.getKey with
       | some v => .ok v
       | none => .error (.keyError dsc.getKey))
  | none =>
      (match alookup n.attrs name with
       | some v => .ok v
       | none => .error (.attributeError name))

/-- Source `UserDict.__getitem__`: `self.data[key]`, `KeyError` when absent. -/
def getitemV (n : Node) (key : String) : Except PyError Value :=
  match alookup n.data key with
  | some v => .ok v
  | none => .error (.keyError key)

/-! ## Constructors -/

/-- Applies `setattr` for each field in order, aborting on the first raised
exception (the partially-built object is discarded, as in `__init__`). -/
def applyFields (set1 : Node → String → Value → Node × Option PyError) :
    Node → List (String × Value) → Except PyError Node
  | n, [] => .ok n
  | n, (k, v) :: rest =>
      match set1 n k v with
      | (n', none) => applyFields set1 n' rest
      | (_, some e) => .error e

/-- Source `__init__` field order: the declared parameters in declaration order
(`for attr, value in locals().items()`), then the extra keyword arguments;
parameters given as `None` are skipped (`if value is not None`). -/
def orderFields (declared : List String) (fields : List (String × Value)) :
    List (String × Value) :=
  ((declared.filterMap (fun p => (alookup fields p).map (fun v => (p, v)))) ++
     fields.filter (fun kv => !(containsStr declared kv.1))).filter
    (fun kv => match kv.2 with | .vnone => false | _ => true)

/-- Source `Schema.__init__`'s declared parameter order. -/
def schemaOrder : List String :=
  ["name", "columns", "foreignKeys", "primaryKey", "rowTitles", "id", "type"]

/-- Source `Column.__init__`'s declared parameter order. -/
def columnOrder : List String :=
  ["name", "suppressOutput", "titles", "virtual", "id", "type"]

/-- Source `Table.__init__`'s declared parameter order. -/
def tableOrder : List String :=
  ["url", "dialect", "suppressOutput", "tableDirection", "tableSchema",
   "transformations", "id", "type"]

/-- Source `Schema.__setattr__` as dispatched for a `Schema` instance. -/
def schemaSetattr : Node → String → Value → Node × Option PyError :=
  setattrCore schemaValid schemaDT runSetter0

/-- Source `Column.__setattr__` as dispatched for a `Column` instance. -/
def columnSetattr : Node → String → Value → Node × Option PyError :=
  setattrCore columnValid columnDT runSetter0

/-- Source `Schema(**fields)`. -/
def schemaInit (fields : List (String × Value)) : Except PyError Node :=
  applyFields schemaSetattr ⟨[], []⟩ (orderFields schemaOrder fields)

/-- Source `Column(**fields)`. -/
def columnInit (fields : List (String × Value)) : Except PyError Node :=
  applyFields columnSetattr ⟨[], []⟩ (orderFields columnOrder fields)

/-- Source `Table.tableSchema`'s setter body: a dict is materialized through
`Schema(**value)`, a `Schema` is stored as is, anything else raises. -/
def tableSchemaSet (d : Store) (v : Value) : Except PyError Store :=
  match v with
  | .vdict m =>
      (schemaInit m).map
        (fun s => insertS d "tableSchema" (.vnode .schema s.data s.attrs))
  | .vnode .schema _ _ => .ok (insertS d "tableSchema" v)
  | _ => .error (.valueError "Value must be of type Schema or dict.")

/-- Setter dispatch for `Table`, adding the materializing `tableSchema`
setter on top of `runSetter0`. -/
def runSetter1 : SetterKind → Store → Value → Except PyError Store
  | .tableSchemaS, d, v => tableSchemaSet d v
  | sk, d, v => runSetter0 sk d v

/-- Source `Table.__setattr__` as dispatched for a `Table` instance. -/
def tableSetattr : Node → String → Value → Node × Option PyError :=
  setattrCore tableValid tableDT runSetter1

/-- Source `Table(**fields)` (with `url` among the fields). -/
def tableInit (fields : List (String × Value)) : Except PyError Node :=
  applyFields tableSetattr ⟨[], []⟩ (orderFields tableOrder fields)

/-- Setter dispatch of each node kind. -/
def kindRun : NodeKind → SetterKind → Store → Value → Except PyError Store
  | .table => runSetter1
  | .schema => runSetter0
  | .column => runSetter0

/-- Source `__setattr__` of each node kind. -/
def setattrK (k : NodeKind) : Node → String → Value → Node × Option PyError :=
  setattrCore (kindValid k) (kindDT k) (kindRun k)

/-- Source `__setitem__` of each node kind. -/
def setitemK (k : NodeKind) : Node → String → Value → Node × Option PyError :=
  setitemCore (kindValid k) (kindDT k) (kindRun k)

/-- Attribute read of each node kind. -/
def getattrK (k : NodeKind) : Node → String → Except PyError Value :=
  getattrCore (kindDT k)

/-! ## Builder methods -/

/-- Source `Schema.add_column(**fields)`: ensure a (truthy) columns list exists,
collect the existing names plus the candidate's (`kwargs.get("name")`,
`None` when absent), run the `set()`-based duplicate check (`TypeError` on
an unhashable name, the duplicate `ValueError` on a repeat), otherwise
build the `Column` and append it in place to `self.data["columns"]`. -/
def schemaAddColumn (n : Node) (fields : List (String × Value)) :
    Node × Option PyError :=
  match (if truthyOpt (alookup n.data "columns") then (n, none)
         else schemaSetattr n "columns" (.vlist [])) with
  | (n0, some e) => (n0, some e)
  | (n0, none) =>
      match alookup n0.data "columns" with
      | none => (n0, some (.keyError "columns"))
      | some cur =>
          match namesOf cur with
          | .error e => (n0, some e)
          | .ok names =>
              let cand := (alookup fields "name").getD .vnone
              match setDupCheck (names ++ [cand]) with
              | some e => (n0, some e)
              | none =>
                match columnInit fields with
                | .error e => (n0, some e)
                | .ok col =>
                    match cur with
                    | .vlist l =>
                        let appended : Value :=
                          .vlist (l ++ [.vnode .column col.data col.attrs])
                        ({ n0 with data := insertS n0.data "columns" appended },
                         none)
                    | _ => (n0, some (.attributeError "append"))

/-- Source `Table.add_schema(**fields)`: assign a fresh `Schema` when
`self.get("tableSchema")` is falsy, raise `AttributeError` otherwise. -/
def tableAddSchema (n : Node) (fields : List (String × Value)) :
    Node × Option PyError :=
  if truthyOpt (alookup n.data "tableSchema") then
    (n, some (.attributeError "Table object already has a Schema attribute."))
  else
    match schemaInit fields with
    | .error e => (n, some e)
    | .ok s => tableSetattr n "tableSchema" (.vnode .schema s.data s.attrs)

/-- Source `Table.add_column(**fields)`: create a schema when
`self.get("tableSchema")` is falsy, then delegate to the schema's
`add_column` (mutating the owned schema in place). -/
def tableAddColumn (n : Node) (fields : List (String × Value)) :
    Node × Option PyError :=
  match (if truthyOpt (alookup n.data "tableSchema") then (n, none)
         else tableAddSchema n []) with
  | (n0, some e) => (n0, some e)
  | (n0, none) =>
      match alookup n0.data "tableSchema" with
      | some (.vnode .schema sd sa) =>
          let r := schemaAddColumn ⟨sd, sa⟩ fields
          let updated : Value := .vnode .schema r.1.data r.1.attrs
          ({ n0 with data := insertS n0.data "tableSchema" updated }, r.2)
      | some _ => (n0, some (.attributeError "add_column"))
      | none => (n0, some (.keyError "tableSchema"))

/-- The canonical key under which an accepted attribute write of `name` is
recorded: the `@`-prefixed key for the JSON-LD names, the plain key for
allow-listed names, the prefixed (`:`-separated) form otherwise. -/
def canonKeyOf (valid : List String) (name : String) : String :=
  if name = "id" ∨ name = "type" ∨ name = "context" then "@" ++ name
  else if containsStr valid name then name
  else prefixer name

/-- Whether a value is a plain Python `dict`. -/
def isVdictB : Value → Bool
  | .vdict _ => true
  | _ => false

/-- Well-formedness of one descriptor-table entry, checked by computation:
either it is the `foreignKeys` descriptor (whose getter deliberately reads
the `columns` key — the source's defect — and which is allow-listed), or
its getter reads exactly the canonical key of its name, its setter writes
the key its getter reads, its name is reserved or allow-listed, and its
name contains no underscore. -/
def dtEntryOK (valid : List String) (e : String × Descriptor) : Bool :=
  (e.1 == "foreignKeys" && containsStr valid e.1) ||
  (e.2.getKey == canonKeyOf valid e.1 &&
   wkey e.2.sk == e.2.getKey &&
   (e.1 == "id" || e.1 == "type" || e.1 == "context" || containsStr valid e.1) &&
   e.1.toList.all (fun c => !(c == '_')))

/-! ## Basic lemmas about the store -/

theorem alookup_insertS_self {α : Type} (l : List (String × α)) (k : String) (v : α) :
    alookup (insertS l k v) k = some v := by
  induction l with
  | nil => simp [insertS, alookup]
  | cons hd tl ih =>
      obtain ⟨k', v'⟩ := hd
      by_cases h : k' = k
      · simp [insertS, h, alookup]
      · simp [insertS, h, alookup, ih]

theorem alookup_insertS_ne {α : Type} (l : List (String × α)) (k k' : String) (v : α)
    (h : k' ≠ k) : alookup (insertS l k v) k' = alookup l k' := by
  induction l with
  | nil => simp [insertS, alookup, Ne.symm h]
  | cons hd tl ih =>
      obtain ⟨k0, v0⟩ := hd
      by_cases h0 : k0 = k
      · subst h0
        simp [insertS, alookup, Ne.symm h, h]
      · by_cases h1 : k0 = k'
        · simp [insertS, h0, alookup, h1, h]
        · simp [insertS, h0, alookup, h1, ih]

theorem insertS_insertS_same {α : Type} (l : List (String × α)) (k : String) (v v' : α) :
    insertS (insertS l k v) k v' = insertS l k v' := by
  induction l with
  | nil => simp [insertS]
  | cons hd tl ih =>
      obtain ⟨k0, v0⟩ := hd
      by_cases h : k0 = k
      · simp [insertS, h]
      · simp [insertS, h, ih]

theorem alookup_some_mem {α : Type} {l : List (String × α)} {k : String} {v : α}
    (h : alookup l k = some v) : (k, v) ∈ l := by
  induction l with
  | nil => simp [alookup] at h
  | cons hd tl ih =>
      obtain ⟨k0, v0⟩ := hd
      by_cases h0 : k0 = k
      · subst h0
        simp [alookup] at h
        simp [h]
      · simp [alookup, h0] at h
        exact List.mem_cons_of_mem _ (ih h)

theorem containsStr_mem {l : List String} {s : String} (h : containsStr l s = true) :
    s ∈ l := by
  induction l with
  | nil => simp [containsStr] at h
  | cons x xs ih =>
      simp only [containsStr, Bool.or_eq_true, beq_iff_eq] at h
      rcases h with h | h
      · subst h; exact List.mem_cons_self _ _
      · exact List.mem_cons_of_mem _ (ih h)

/-- Source `__setattr__` on a name that is not `data`, not a JSON-LD name and not
allow-listed: the write reduces to the common-property validation. -/
theorem setattr_unlisted (valid : List String) (dt : List (String × Descriptor))
    (run : SetterKind → Store → Value → Except PyError Store)
    (n : Node) (name : String) (v : Value)
    (hd : name ≠ "data")
    (hres : ¬(name = "id" ∨ name = "type" ∨ name = "context"))
    (hval : containsStr valid name = false) :
    setattrCore valid dt run n name v
      = (if prefixKnown (prefixer name) || is_absolute_uri (prefixer name) then
           ({ data := insertS n.data (prefixer name) v,
              attrs := insertS n.attrs name v }, none)
         else (n, some (.valueError cpErrMsg))) := by
  unfold setattrCore
  rw [if_neg hd, if_neg hres, if_neg (by simp [hval])]

/-- Source `__setattr__` on an allow-listed name with a property descriptor: the
plain-key pre-write happens first, then the setter runs on the pre-written
store; a setter failure keeps the pre-written store. -/
theorem setattr_listed (valid : List String) (dt : List (String × Descriptor))
    (run : SetterKind → Store → Value → Except PyError Store)
    (n : Node) (name : String) (v : Value) (dsc : Descriptor)
    (hd : name ≠ "data")
    (hres : ¬(name = "id" ∨ name = "type" ∨ name = "context"))
    (hval : containsStr valid name = true)
    (hdt : alookup dt name = some dsc) :
    setattrCore valid dt run n name v
      = (match run dsc.sk (insertS n.data name v) v with
         | .ok d' => ({ data := d', attrs := n.attrs }, none)
         | .error e => ({ data := insertS n.data name v, attrs := n.attrs }, some e)) := by
  unfold setattrCore superSet
  rw [if_neg hd, if_neg hres, if_pos (by simp [hval]), hdt]

/-- Source `__setattr__` on an allow-listed name without a descriptor: plain-key
pre-write plus a plain instance-attribute write, never failing. -/
theorem setattr_listed_nodesc (valid : List String) (dt : List (String × Descriptor))
    (run : SetterKind → Store → Value → Except PyError Store)
    (n : Node) (name : String) (v : Value)
    (hd : name ≠ "data")
    (hres : ¬(name = "id" ∨ name = "type" ∨ name = "context"))
    (hval : containsStr valid name = true)
    (hdt : alookup dt name = none) :
    setattrCore valid dt run n name v
      = ({ data := insertS n.data name v, attrs := insertS n.attrs name v }, none) := by
  unfold setattrCore superSet
  rw [if_neg hd, if_neg hres, if_pos (by simp [hval]), hdt]

/-- Source `__setattr__` on `id`/`type`/`context` with a descriptor: the value is
recorded under the `@`-prefixed key first, then the setter runs. -/
theorem setattr_reserved (valid : List String) (dt : List (String × Descriptor))
    (run : SetterKind → Store → Value → Except PyError Store)
    (n : Node) (name : String) (v : Value) (dsc : Descriptor)
    (hres : name = "id" ∨ name = "type" ∨ name = "context")
    (hdt : alookup dt name = some dsc) :
    setattrCore valid dt run n name v
      = (match run dsc.sk (insertS n.data ("@" ++ name) v) v with
         | .ok d' => ({ data := d', attrs := n.attrs }, none)
         | .error e => ({ data := insertS n.data ("@" ++ name) v, attrs := n.attrs }, some e)) := by
  have hd : name ≠ "data" := by rcases hres with h | h | h <;> subst h <;> decide
  unfold setattrCore superSet
  rw [if_neg hd, if_pos hres, hdt]

/-- Source `__setattr__` on `id`/`type`/`context` without a descriptor: the value
is recorded under the `@`-prefixed key and as a plain instance attribute. -/
theorem setattr_reserved_nodesc (valid : List String) (dt : List (String × Descriptor))
    (run : SetterKind → Store → Value → Except PyError Store)
    (n : Node) (name : String) (v : Value)
    (hres : name = "id" ∨ name = "type" ∨ name = "context")
    (hdt : alookup dt name = none) :
    setattrCore valid dt run n name v
      = ({ data := insertS n.data ("@" ++ name) v,
           attrs := insertS n.attrs name v }, none) := by
  have hd : name ≠ "data" := by rcases hres with h | h | h <;> subst h <;> decide
  unfold setattrCore superSet
  rw [if_neg hd, if_pos hres, hdt]

/-! ## Claim C1 -/

/-- C1 counterexample: on a `Table` with only a `url`, the rejected write
`tableDirection = "sideways"` raises `ValueError`, yet afterwards the store
contains `"tableDirection" ↦ "sideways"`: the failed write left a partial
state change, so the store is observably different (and invalid). -/
theorem C1_counterexample :
    tableSetattr ⟨[("url", .vstr "hello")], []⟩ "tableDirection" (.vstr "sideways")
      = (⟨[("url", .vstr "hello"), ("tableDirection", .vstr "sideways")], []⟩,
         some (.valueError dirMsg))
  ∧ ([("url", Value.vstr "hello"), ("tableDirection", Value.vstr "sideways")] : Store)
      ≠ [("url", Value.vstr "hello")] := by
  refine ⟨rfl, ?_⟩
  intro h
  simp at h

/-- C1 (amended): a write rejected by the common-property *name* validation
leaves the node unchanged; but a write to the validated `tableDirection`
attribute with an invalid value raises only after the rejected value has
been recorded in the store under the plain key, so typed-setter failures do
leave a partial state change. -/
theorem C1_amended_holds :
    (∀ (k : NodeKind) (n : Node) (name : String) (v : Value),
       name ≠ "data" →
       ¬(name = "id" ∨ name = "type" ∨ name = "context") →
       containsStr (kindValid k) name = false →
       prefixKnown (prefixer name) = false →
       is_absolute_uri (prefixer name) = false →
       setattrK k n name v = (n, some (.valueError cpErrMsg)))
  ∧ (∀ (n : Node) (v : Value), dirOK v = false →
       tableSetattr n "tableDirection" v
         = ({ data := insertS n.data "tableDirection" v, attrs := n.attrs },
            some (.valueError dirMsg))) := by
  constructor
  · intro k n name v hd hres hval hpk habs
    show setattrCore (kindValid k) (kindDT k) (kindRun k) n name v = _
    rw [setattr_unlisted _ _ _ _ _ _ hd hres hval, if_neg (by simp [hpk, habs])]
  · intro n v hv
    show setattrCore tableValid tableDT runSetter1 n "tableDirection" v = _
    rw [setattr_listed tableValid tableDT runSetter1 n "tableDirection" v
          ⟨.tableDirection, "tableDirection"⟩ (by decide) (by decide) (by decide) rfl]
    have hr : runSetter1 .tableDirection (insertS n.data "tableDirection" v) v
        = .error (.valueError dirMsg) := by
      show (if dirOK v = true then
              Except.ok (insertS (insertS n.data "tableDirection" v) "tableDirection" v)
            else Except.error (PyError.valueError dirMsg)) = _
      rw [if_neg (by simp [hv])]
    rw [hr]

/-- C1 amended witness: the unknown name `madeup_example` is rejected with
the node unchanged; `tableDirection = "sideways"` is rejected but recorded. -/
theorem C1_amended_witness :
    containsStr (kindValid .table) "madeup_example" = false
  ∧ prefixKnown (prefixer "madeup_example") = false
  ∧ is_absolute_uri (prefixer "madeup_example") = false
  ∧ setattrK .table ⟨[("url", .vstr "hello")], []⟩ "madeup_example" (.vstr "x")
      = (⟨[("url", .vstr "hello")], []⟩, some (.valueError cpErrMsg))
  ∧ dirOK (.vstr "sideways") = false
  ∧ tableSetattr ⟨[("url", .vstr "hello")], []⟩ "tableDirection" (.vstr "sideways")
      = (⟨[("url", .vstr "hello"), ("tableDirection", .vstr "sideways")], []⟩,
         some (.valueError dirMsg)) := by
  refine ⟨by decide, by decide, by decide, ?_, by decide, ?_⟩
  · exact C1_amended_holds.1 .table ⟨[("url", .vstr "hello")], []⟩ "madeup_example"
      (.vstr "x") (by decide) (by decide) (by decide) (by decide) (by decide)
  · exact (C1_amended_holds.2 ⟨[("url", .vstr "hello")], []⟩ (.vstr "sideways")
      (by decide)).trans rfl

/-! ## Claim C5 -/

/-- C5 counterexample: a table that already owns a schema (created by a
previous `add_schema`) does not make the next `add_schema` raise: the
owned schema is empty, hence falsy, so `if not self.get("tableSchema")`
treats it as absent and the second call silently replaces it. -/
theorem C5_counterexample :
    (tableAddSchema ⟨[("url", .vstr "hello")], []⟩ []).1
      = ⟨[("url", .vstr "hello"), ("tableSchema", .vnode .schema [] [])], []⟩
  ∧ tableAddSchema ⟨[("url", .vstr "hello"), ("tableSchema", .vnode .schema [] [])], []⟩
      [("id", .vstr "#schema")]
    = (⟨[("url", .vstr "hello"),
         ("tableSchema", .vnode .schema [("@id", .vstr "#schema")]
            [("id", .vstr "#schema")])], []⟩, none) :=
  ⟨rfl, rfl⟩

/-- C5 (amended): `add_schema` raises AlreadyPresent exactly when the
existing `tableSchema` entry is truthy (a non-empty schema); a table whose
`tableSchema` is absent or falsy (e.g. an empty schema) gets a freshly
constructed schema assigned, silently replacing any falsy one. -/
theorem C5_amended_holds :
    (∀ (n : Node) (fields : List (String × Value)),
       truthyOpt (alookup n.data "tableSchema") = true →
       tableAddSchema n fields
         = (n, some (.attributeError "Table object already has a Schema attribute.")))
  ∧ (∀ (n : Node) (fields : List (String × Value)) (s : Node),
       truthyOpt (alookup n.data "tableSchema") = false →
       schemaInit fields = .ok s →
       tableAddSchema n fields
         = ({ data := insertS n.data "tableSchema" (.vnode .schema s.data s.attrs),
              attrs := n.attrs }, none)) := by
  constructor
  · intro n fields ht
    unfold tableAddSchema
    rw [if_pos ht]
  · intro n fields s ht hs
    unfold tableAddSchema
    rw [if_neg (by simp [ht]), hs]
    show setattrCore tableValid tableDT runSetter1 n "tableSchema"
        (.vnode .schema s.data s.attrs) = _
    rw [setattr_listed tableValid tableDT runSetter1 n "tableSchema" _
          ⟨.tableSchemaS, "tableSchema"⟩ (by decide) (by decide) (by decide) rfl]
    have hr : runSetter1 .tableSchemaS
        (insertS n.data "tableSchema" (.vnode .schema s.data s.attrs))
        (.vnode .schema s.data s.attrs)
        = .ok (insertS (insertS n.data "tableSchema" (.vnode .schema s.data s.attrs))
            "tableSchema" (.vnode .schema s.data s.attrs)) := rfl
    rw [hr, insertS_insertS_same]

/-- C5 amended witness: a fresh table gets a schema assigned; a table with a
truthy (non-empty) schema raises. -/
theorem C5_amended_witness :
    truthyOpt (alookup ([("url", Value.vstr "hello")] : Store) "tableSchema") = false
  ∧ schemaInit [("id", .vstr "#s")]
      = .ok ⟨[("@id", .vstr "#s")], [("id", .vstr "#s")]⟩
  ∧ tableAddSchema ⟨[("url", .vstr "hello")], []⟩ [("id", .vstr "#s")]
      = (⟨[("url", .vstr "hello"),
           ("tableSchema", .vnode .schema [("@id", .vstr "#s")] [("id", .vstr "#s")])],
          []⟩, none)
  ∧ truthyOpt (alookup
      ([("url", Value.vstr "hello"),
        ("tableSchema", Value.vnode .schema [("@id", Value.vstr "#s")] [])] : Store)
      "tableSchema") = true
  ∧ tableAddSchema
      ⟨[("url", .vstr "hello"),
        ("tableSchema", .vnode .schema [("@id", .vstr "#s")] [])], []⟩ []
      = (⟨[("url", .vstr "hello"),
           ("tableSchema", .vnode .schema [("@id", .vstr "#s")] [])], []⟩,
         some (.attributeError "Table object already has a Schema attribute.")) := by
  refine ⟨rfl, rfl, ?_, rfl, ?_⟩
  · exact (C5_amended_holds.2 ⟨[("url", .vstr "hello")], []⟩ [("id", .vstr "#s")]
      ⟨[("@id", .vstr "#s")], [("id", .vstr "#s")]⟩ rfl rfl).trans rfl
  · exact C5_amended_holds.1
      ⟨[("url", .vstr "hello"),
        ("tableSchema", .vnode .schema [("@id", .vstr "#s")] [])], []⟩ [] rfl

/-! ## Claim C10 -/

/-- C10: setting a column's `name` to `""` fails with `IndexError` (from the
unguarded `value[0]`), not with the underscore `ValueError`; the pre-write
of `CommonProperties.__setattr__` still records the empty name. -/
theorem C10_empty_name (n : Node) :
    columnSetattr n "name" (.vstr "")
      = ({ data := insertS n.data "name" (.vstr ""), attrs := n.attrs },
         some .indexError) := by
  show setattrCore columnValid columnDT runSetter0 n "name" (.vstr "") = _
  rw [setattr_listed columnValid columnDT runSetter0 n "name" _
        ⟨.nameS, "name"⟩ (by decide) (by decide) (by decide) rfl]
  rfl

/-- C10 witness: the empty-name failure at a concrete empty column. -/
theorem C10_empty_name_witness :
    columnSetattr ⟨[], []⟩ "name" (.vstr "")
      = (⟨[("name", .vstr "")], []⟩, some .indexError) :=
  C10_empty_name ⟨[], []⟩

/-! ## Claim C7 -/

/-- C7 counterexample: the empty string does not begin with an underscore,
yet the name setter does not accept it — it raises `IndexError` instead of
storing-and-succeeding, refuting "names not beginning with an underscore
are accepted by the name setter". -/
theorem C7_counterexample :
    ("".toList.head? ≠ some '_')
  ∧ (columnSetattr ⟨[], []⟩ "name" (.vstr "")).2 = some .indexError :=
  ⟨by decide, rfl⟩

/-- C7 (amended): a string beginning with an underscore always makes the
name setter raise the underscore `ValueError` (whatever other fields the
column carries — the node `n` is arbitrary); a *non-empty* string not
beginning with an underscore is accepted; the empty string is the one
non-underscore name that is not accepted (see the counterexample, it
raises `IndexError`). -/
theorem C7_amended_holds :
    (∀ (n : Node) (s : String) (l : List Char), s.toList = '_' :: l →
       columnSetattr n "name" (.vstr s)
         = ({ data := insertS n.data "name" (.vstr s), attrs := n.attrs },
            some (.valueError "'name' attribute must not begin with an underscore '_'")))
  ∧ (∀ (n : Node) (s : String) (c : Char) (l : List Char),
       s.toList = c :: l → c ≠ '_' →
       columnSetattr n "name" (.vstr s)
         = ({ data := insertS n.data "name" (.vstr s), attrs := n.attrs }, none)) := by
  constructor
  · intro n s l hs
    show setattrCore columnValid columnDT runSetter0 n "name" (.vstr s) = _
    rw [setattr_listed columnValid columnDT runSetter0 n "name" _
          ⟨.nameS, "name"⟩ (by decide) (by decide) (by decide) rfl]
    have hr : runSetter0 .nameS (insertS n.data "name" (.vstr s)) (.vstr s)
        = .error (.valueError "'name' attribute must not begin with an underscore '_'") := by
      show (match s.toList with
            | [] => Except.error PyError.indexError
            | c :: _ =>
                if c = '_' then
                  Except.error (PyError.valueError
                    "'name' attribute must not begin with an underscore '_'")
                else Except.ok (insertS (insertS n.data "name" (.vstr s)) "name" (.vstr s))) = _
      rw [hs]
      rfl
    rw [hr]
  · intro n s c l hs hc
    show setattrCore columnValid columnDT runSetter0 n "name" (.vstr s) = _
    rw [setattr_listed columnValid columnDT runSetter0 n "name" _
          ⟨.nameS, "name"⟩ (by decide) (by decide) (by decide) rfl]
    have hr : runSetter0 .nameS (insertS n.data "name" (.vstr s)) (.vstr s)
        = .ok (insertS (insertS n.data "name" (.vstr s)) "name" (.vstr s)) := by
      show (match s.toList with
            | [] => Except.error PyError.indexError
            | c :: _ =>
                if c = '_' then
                  Except.error (PyError.valueError
                    "'name' attribute must not begin with an underscore '_'")
                else Except.ok (insertS (insertS n.data "name" (.vstr s)) "name" (.vstr s))) = _
      rw [hs]
      simp [hc]
    rw [hr, insertS_insertS_same]

/-- C7 amended witness: `"_private"` raises the underscore failure,
`"region"` is accepted. -/
theorem C7_amended_witness :
    "_private".toList = '_' :: "private".toList
  ∧ columnSetattr ⟨[], []⟩ "name" (.vstr "_private")
      = (⟨[("name", .vstr "_private")], []⟩,
         some (.valueError "'name' attribute must not begin with an underscore '_'"))
  ∧ "region".toList = 'r' :: "egion".toList
  ∧ ('r' : Char) ≠ '_'
  ∧ columnSetattr ⟨[], []⟩ "name" (.vstr "region")
      = (⟨[("name", .vstr "region")], []⟩, none) := by
  refine ⟨by decide, ?_, by decide, by decide, ?_⟩
  · exact (C7_amended_holds.1 ⟨[], []⟩ "_private" "private".toList (by decide)).trans rfl
  · exact (C7_amended_holds.2 ⟨[], []⟩ "region" 'r' "egion".toList
      (by decide) (by decide)).trans rfl

/-- Appending a value already present (under Python `==`) creates a
duplicate. -/
theorem hasDup_append_of_mem (names : List Value) (c : Value)
    (h : names.any (fun y => vbeq y c) = true) :
    hasDup (names ++ [c]) = true := by
  induction names with
  | nil => simp at h
  | cons x xs ih =>
      simp only [List.any_cons, Bool.or_eq_true] at h
      rcases h with h | h
      · simp [hasDup, List.any_append, h]
      · simp [hasDup, ih h]

/-! ## Claim C6 -/

theorem namesOf_nil : namesOf (.vlist []) = Except.ok ([] : List Value) := rfl

theorem setDupCheck_of_unhash (names : List Value) (bad : Value)
    (h : names.find? (fun x => !(hashableV x)) = some bad) :
    setDupCheck names = some (.typeError (unhashMsg bad)) := by
  unfold setDupCheck
  rw [h]

theorem setDupCheck_dup (names : List Value) (s : String)
    (hall : names.all hashableV = true)
    (hmem : names.any (fun y => vbeq y (.vstr s)) = true) :
    setDupCheck (names ++ [.vstr s]) = some (.valueError dupMsg) := by
  have hfind : (names ++ [Value.vstr s]).find? (fun x => !(hashableV x))
      = none := by
    rw [List.find?_eq_none]
    intro x hx
    rcases List.mem_append.mp hx with h1 | h1
    · have hh := List.all_eq_true.mp hall x h1
      simp [hh]
    · simp only [List.mem_singleton] at h1
      subst h1
      simp [hashableV]
  unfold setDupCheck
  rw [hfind, hasDup_append_of_mem _ _ hmem]
  rfl

theorem setDupCheck_single (v : Value) (h : hashableV v = true) :
    setDupCheck [v] = none := by
  unfold setDupCheck
  have hfind : ([v].find? fun x => !(hashableV x)) = none := by
    rw [List.find?_eq_none]
    intro x hx
    simp only [List.mem_singleton] at hx
    subst hx
    simp [h]
  rw [hfind]
  simp [hasDup]

/-- C6 counterexample: a schema whose single column's `name` is the list
`["x"]` (such a column is storable through the `columns` setter, which only
checks the *previous* columns' names): adding a candidate whose `name` is
the equal list `["x"]` is exactly the claim's duplicate trigger, yet
`add_column` raises `TypeError` from `set(names)` on the unhashable list —
not the duplicate-name `ValueError` — and appends nothing. -/
theorem C6_counterexample :
    vbeq (Value.vlist [.vstr "x"]) (Value.vlist [.vstr "x"]) = true
  ∧ schemaAddColumn
      ⟨[("columns",
         .vlist [.vnode .column [("name", .vlist [.vstr "x"])] []])], []⟩
      [("name", .vlist [.vstr "x"])]
    = (⟨[("columns",
          .vlist [.vnode .column [("name", .vlist [.vstr "x"])] []])], []⟩,
       some (.typeError "unhashable type: 'list'"))
  ∧ (PyError.typeError "unhashable type: 'list'") ≠ .valueError dupMsg := by
  refine ⟨rfl, rfl, by simp⟩

/-- C6 amended: `add_column`'s duplicate check is `len(names) > len(set(names))`,
so its behaviour splits on hashability.  (i) With every existing name
hashable, a candidate string name equal to an existing name raises the
duplicate `ValueError` and leaves the schema unchanged.  (ii) When the
collected name list (existing names plus the candidate) contains an
unhashable value (list, dict, node or Context), `add_column` raises
`TypeError` (`set()` fails at the first such element) regardless of
duplication, appending nothing.  (iii) When the check passes, exactly the
one freshly built column is appended at the end of the columns list; and
(iv) likewise on a schema with no (truthy) columns entry, where the
appended column — its hashable candidate name unique in a singleton
list — becomes the only one. -/
theorem C6_amended_holds :
    (∀ (n : Node) (cols names : List Value) (s : String)
       (fields : List (String × Value)),
       alookup n.data "columns" = some (.vlist cols) → cols ≠ [] →
       namesOf (.vlist cols) = .ok names →
       names.all hashableV = true →
       names.any (fun y => vbeq y (.vstr s)) = true →
       alookup fields "name" = some (.vstr s) →
       schemaAddColumn n fields = (n, some (.valueError dupMsg)))
  ∧ (∀ (n : Node) (cols names : List Value) (bad : Value)
       (fields : List (String × Value)),
       alookup n.data "columns" = some (.vlist cols) → cols ≠ [] →
       namesOf (.vlist cols) = .ok names →
       (names ++ [(alookup fields "name").getD .vnone]).find?
           (fun x => !(hashableV x)) = some bad →
       schemaAddColumn n fields = (n, some (.typeError (unhashMsg bad))))
  ∧ (∀ (n : Node) (cols names : List Value) (fields : List (String × Value))
       (col : Node),
       alookup n.data "columns" = some (.vlist cols) → cols ≠ [] →
       namesOf (.vlist cols) = .ok names →
       setDupCheck (names ++ [(alookup fields "name").getD .vnone]) = none →
       columnInit fields = .ok col →
       schemaAddColumn n fields
         = ({ data :=
                insertS n.data "columns"
                  (.vlist (cols ++ [.vnode .column col.data col.attrs])),
              attrs := n.attrs }, none))
  ∧ (∀ (n : Node) (fields : List (String × Value)) (col : Node),
       truthyOpt (alookup n.data "columns") = false →
       hashableV ((alookup fields "name").getD .vnone) = true →
       columnInit fields = .ok col →
       schemaAddColumn n fields
         = ({ data :=
                insertS n.data "columns"
                  (.vlist [.vnode .column col.data col.attrs]),
              attrs := n.attrs }, none)) := by
  refine ⟨?_, ?_, ?_, ?_⟩
  · intro n cols names s fields hcol hne hnam hall hmem hfname
    obtain ⟨c0, cs, rfl⟩ : ∃ c0 cs, cols = c0 :: cs := by
      cases cols with
      | nil => exact absurd rfl hne
      | cons c0 cs => exact ⟨c0, cs, rfl⟩
    have hsd : setDupCheck (names ++ [Value.vstr s])
        = some (.valueError dupMsg) := setDupCheck_dup names s hall hmem
    simp only [schemaAddColumn, hcol, truthyOpt, truthy, List.isEmpty_cons,
      Bool.not_false, if_true, hnam, hfname, Option.getD_some, hsd]
  · intro n cols names bad fields hcol hne hnam hfind
    obtain ⟨c0, cs, rfl⟩ : ∃ c0 cs, cols = c0 :: cs := by
      cases cols with
      | nil => exact absurd rfl hne
      | cons c0 cs => exact ⟨c0, cs, rfl⟩
    have hsd : setDupCheck (names ++ [(alookup fields "name").getD .vnone])
        = some (.typeError (unhashMsg bad)) := setDupCheck_of_unhash _ _ hfind
    simp only [schemaAddColumn, hcol, truthyOpt, truthy, List.isEmpty_cons,
      Bool.not_false, if_true, hnam, hsd]
  · intro n cols names fields col hcol hne hnam hsd hinit
    obtain ⟨c0, cs, rfl⟩ : ∃ c0 cs, cols = c0 :: cs := by
      cases cols with
      | nil => exact absurd rfl hne
      | cons c0 cs => exact ⟨c0, cs, rfl⟩
    simp only [schemaAddColumn, hcol, truthyOpt, truthy, List.isEmpty_cons,
      Bool.not_false, if_true, hnam, hsd, hinit]
  · intro n fields col hfal hhash hinit
    have hset : schemaSetattr n "columns" (.vlist [])
        = ({ data := insertS n.data "columns" (.vlist []), attrs := n.attrs },
           none) := by
      show setattrCore schemaValid schemaDT runSetter0 n "columns" (.vlist []) = _
      rw [setattr_listed schemaValid schemaDT runSetter0 n "columns" (.vlist [])
          ⟨.columnsS, "columns"⟩ (by decide) (by decide) (by decide) (by decide)]
      have hr : runSetter0 SetterKind.columnsS
            (insertS n.data "columns" (.vlist [])) (.vlist [])
          = .ok (insertS (insertS n.data "columns" (.vlist []))
                   "columns" (.vlist [])) := by
        show (match alookup (insertS n.data "columns" (.vlist [])) "columns" with
              | none => (Except.error (PyError.keyError "columns") :
                          Except PyError Store)
              | some cur =>
                  match namesOf cur with
                  | .error e => .error e
                  | .ok names =>
                      match setDupCheck names with
                      | some e => .error e
                      | none => .ok (insertS (insertS n.data "columns" (.vlist []))
                                  "columns" (.vlist []))) = _
        rw [alookup_insertS_self]
        rfl
      rw [hr, insertS_insertS_same]
    have hsd : setDupCheck [(alookup fields "name").getD .vnone] = none :=
      setDupCheck_single _ hhash
    simp only [schemaAddColumn, hfal, Bool.false_eq_true, if_false, hset,
      alookup_insertS_self, namesOf_nil, List.nil_append, hsd,
      hinit, insertS_insertS_same]

/-- C6 witness: a schema owning one column named `region`: adding another
`region` raises the duplicate failure and adding `city` appends one column;
a schema whose column is named by the (unhashable) empty dict raises the
`set()` `TypeError` on any further add; a schema with no columns entry
accepts `city` as its only column. -/
theorem C6_amended_witness :
    alookup ([("columns",
        Value.vlist [.vnode .column [("name", Value.vstr "region")] []])] : Store)
      "columns" = some (.vlist [.vnode .column [("name", .vstr "region")] []])
  ∧ namesOf (.vlist [.vnode .column [("name", .vstr "region")] []])
      = .ok [.vstr "region"]
  ∧ schemaAddColumn
      ⟨[("columns", .vlist [.vnode .column [("name", .vstr "region")] []])], []⟩
      [("name", .vstr "region")]
    = (⟨[("columns", .vlist [.vnode .column [("name", .vstr "region")] []])], []⟩,
       some (.valueError dupMsg))
  ∧ schemaAddColumn
      ⟨[("columns", .vlist [.vnode .column [("name", .vdict [])] []])], []⟩ []
    = (⟨[("columns", .vlist [.vnode .column [("name", .vdict [])] []])], []⟩,
       some (.typeError "unhashable type: 'dict'"))
  ∧ schemaAddColumn
      ⟨[("columns", .vlist [.vnode .column [("name", .vstr "region")] []])], []⟩
      [("name", .vstr "city")]
    = (⟨[("columns", .vlist
          [.vnode .column [("name", .vstr "region")] [],
           .vnode .column [("name", .vstr "city")] []])], []⟩, none)
  ∧ schemaAddColumn ⟨[], []⟩ [("name", .vstr "city")]
    = (⟨[("columns", .vlist [.vnode .column [("name", .vstr "city")] []])], []⟩,
       none) := by
  refine ⟨rfl, rfl, ?_, ?_, ?_, ?_⟩
  · exact C6_amended_holds.1
      ⟨[("columns", .vlist [.vnode .column [("name", .vstr "region")] []])], []⟩
      [.vnode .column [("name", .vstr "region")] []] [.vstr "region"] "region"
      [("name", .vstr "region")] rfl (by simp) rfl (by decide) (by decide) rfl
  · exact (C6_amended_holds.2.1
      ⟨[("columns", .vlist [.vnode .column [("name", .vdict [])] []])], []⟩
      [.vnode .column [("name", .vdict [])] []] [.vdict []] (.vdict []) []
      rfl (by simp) rfl rfl).trans rfl
  · exact (C6_amended_holds.2.2.1
      ⟨[("columns", .vlist [.vnode .column [("name", .vstr "region")] []])], []⟩
      [.vnode .column [("name", .vstr "region")] []] [.vstr "region"]
      [("name", .vstr "city")] ⟨[("name", .vstr "city")], []⟩
      rfl (by simp) rfl (by decide) rfl).trans rfl
  · exact (C6_amended_holds.2.2.2 ⟨[], []⟩ [("name", .vstr "city")]
      ⟨[("name", .vstr "city")], []⟩ rfl (by decide) rfl).trans rfl

/-! ## Claim C8 -/

/-- C8: on a schema whose store has a `columns` entry `c`, setting
`foreignKeys` succeeds and records the list under the `foreignKeys` key,
yet reading the `foreignKeys` *property* afterwards returns `c` — the
value stored under `columns` — because the getter's body is
`return self.data["columns"]`. -/
theorem C8_foreignKeys_getter (n : Node) (fk c : Value)
    (hc : alookup n.data "columns" = some c) :
    (schemaSetattr n "foreignKeys" fk).2 = none
  ∧ alookup (schemaSetattr n "foreignKeys" fk).1.data "foreignKeys" = some fk
  ∧ getattrK .schema (schemaSetattr n "foreignKeys" fk).1 "foreignKeys" = .ok c := by
  have hset : schemaSetattr n "foreignKeys" fk
      = ({ data := insertS n.data "foreignKeys" fk, attrs := n.attrs }, none) := by
    show setattrCore schemaValid schemaDT runSetter0 n "foreignKeys" fk = _
    rw [setattr_listed schemaValid schemaDT runSetter0 n "foreignKeys" fk
          ⟨.plain "foreignKeys", "columns"⟩ (by decide) (by decide) (by decide) rfl]
    show (({ data := insertS (insertS n.data "foreignKeys" fk) "foreignKeys" fk,
             attrs := n.attrs } : Node), (none : Option PyError)) = _
    rw [insertS_insertS_same]
  have hget : getattrK .schema
      ({ data := insertS n.data "foreignKeys" fk, attrs := n.attrs } : Node)
      "foreignKeys" = .ok c := by
    show (match alookup (insertS n.data "foreignKeys" fk) "columns" with
          | some v => Except.ok v
          | none => Except.error (PyError.keyError "columns")) = Except.ok c
    rw [alookup_insertS_ne _ _ _ _ (by decide), hc]
  refine ⟨by rw [hset], by rw [hset]; exact alookup_insertS_self _ _ _, ?_⟩
  rw [hset]
  exact hget

/-- C8 witness: a schema with an empty columns list; after storing a
foreign-key list, the property read returns the columns list instead. -/
theorem C8_foreignKeys_getter_witness :
    alookup ([("columns", Value.vlist [])] : Store) "columns" = some (.vlist [])
  ∧ (schemaSetattr ⟨[("columns", .vlist [])], []⟩ "foreignKeys"
       (.vlist [.vstr "fk"])).2 = none
  ∧ alookup (schemaSetattr ⟨[("columns", .vlist [])], []⟩ "foreignKeys"
       (.vlist [.vstr "fk"])).1.data "foreignKeys" = some (.vlist [.vstr "fk"])
  ∧ getattrK .schema (schemaSetattr ⟨[("columns", .vlist [])], []⟩ "foreignKeys"
       (.vlist [.vstr "fk"])).1 "foreignKeys" = .ok (.vlist []) :=
  ⟨rfl,
   (C8_foreignKeys_getter ⟨[("columns", .vlist [])], []⟩ (.vlist [.vstr "fk"])
     (.vlist []) rfl).1,
   (C8_foreignKeys_getter ⟨[("columns", .vlist [])], []⟩ (.vlist [.vstr "fk"])
     (.vlist []) rfl).2.1,
   (C8_foreignKeys_getter ⟨[("columns", .vlist [])], []⟩ (.vlist [.vstr "fk"])
     (.vlist []) rfl).2.2⟩

/-! ## Claim C3 -/

/-- C3: for a candidate name that is neither one of the reserved structural
attributes (`id`/`type`/`context`, stored at the `@`-keys — nor the
internal `data` slot of the `UserDict` itself) nor in the node kind's
allow-list, the write is accepted iff the canonical form's first-colon
prefix is in the registry or the canonical form is an absolute URI; on
acceptance it is stored under the canonical key, otherwise it raises the
common-property `ValueError`.  The concrete conjuncts record the claim's
examples: `dcterms_title` canonicalizes to the registered `dcterms:title`;
`madeup_example` passes neither test; the absolute key
`http://example.co.uk` written through the key view is accepted. -/
theorem C3_acceptance :
    (∀ (k : NodeKind) (n : Node) (name : String) (v : Value),
       name ≠ "data" →
       ¬(name = "id" ∨ name = "type" ∨ name = "context") →
       containsStr (kindValid k) name = false →
       setattrK k n name v
         = (if prefixKnown (prefixer name) || is_absolute_uri (prefixer name) then
              ({ data := insertS n.data (prefixer name) v,
                 attrs := insertS n.attrs name v }, none)
            else (n, some (.valueError cpErrMsg))))
  ∧ prefixer "dcterms_title" = "dcterms:title"
  ∧ prefixKnown "dcterms:title" = true
  ∧ prefixKnown (prefixer "madeup_example") = false
  ∧ is_absolute_uri (prefixer "madeup_example") = false
  ∧ setitemK .table ⟨[], []⟩ "http://example.co.uk" (.vstr "example")
      = (⟨[("http://example.co.uk", .vstr "example")],
          [("http://example.co.uk", .vstr "example")]⟩, none) := by
  refine ⟨?_, rfl, by decide, by decide, by decide, rfl⟩
  intro k n name v hd hres hval
  exact setattr_unlisted (kindValid k) (kindDT k) (kindRun k) n name v hd hres hval

/-- C3 witness: the universal characterization applied to `dcterms_title`
(accepted, stored as `dcterms:title`) and to `madeup_example` (rejected,
node unchanged) on a table node. -/
theorem C3_acceptance_witness :
    containsStr (kindValid .table) "dcterms_title" = false
  ∧ setattrK .table ⟨[], []⟩ "dcterms_title" (.vstr "T")
      = (⟨[("dcterms:title", .vstr "T")], [("dcterms_title", .vstr "T")]⟩, none)
  ∧ containsStr (kindValid .table) "madeup_example" = false
  ∧ setattrK .table ⟨[], []⟩ "madeup_example" (.vstr "x")
      = (⟨[], []⟩, some (.valueError cpErrMsg)) := by
  refine ⟨by decide, ?_, by decide, ?_⟩
  · exact (C3_acceptance.1 .table ⟨[], []⟩ "dcterms_title" (.vstr "T")
      (by decide) (by decide) (by decide)).trans rfl
  · exact (C3_acceptance.1 .table ⟨[], []⟩ "madeup_example" (.vstr "x")
      (by decide) (by decide) (by decide)).trans rfl

/-! ## Claim C4 -/

theorem tableSetattr_def : tableSetattr = setattrCore tableValid tableDT runSetter1 := rfl

theorem schemaSetattr_def : schemaSetattr = setattrCore schemaValid schemaDT runSetter0 := rfl

theorem columnSetattr_def : columnSetattr = setattrCore columnValid columnDT runSetter0 := rfl

theorem at_id_eq : ("@" ++ "id" : String) = "@id" := rfl

theorem at_type_eq : ("@" ++ "type" : String) = "@type" := rfl

theorem at_context_eq : ("@" ++ "context" : String) = "@context" := rfl

/-- C4 counterexample: writing through the key view under the reserved
structural key `@id` itself is not accepted at all — the attribute name it
resolves to (`@id`, unchanged by `unprefixer`) fails the common-property
validation, so the write raises instead of being accepted
unconditionally. -/
theorem C4_counterexample :
    setitemK .table ⟨[("url", .vstr "hello")], []⟩ "@id" (.vstr "x")
      = (⟨[("url", .vstr "hello")], []⟩, some (.valueError cpErrMsg)) := rfl

/-- C4 (amended): attribute-view writes of `id` always succeed, for every
kind, recording under `@id`; `type` writes record under `@type` before any
check, unconditionally succeeding on Schema/Column while Table's setter
accepts exactly `"Table"`; `context` writes always leave a value under
`@context` (Column accepts anything); key-view writes of the *bare* keys
`id`/`type`/`context` go through the same attribute path and additionally
record the bare key, while the `@`-prefixed keys themselves are rejected
by the common-property validation with no state change. -/
theorem C4_amended_holds :
    (∀ (k : NodeKind) (n : Node) (v : Value),
       (setattrK k n "id" v).2 = none
       ∧ alookup (setattrK k n "id" v).1.data "@id" = some v)
  ∧ (∀ (k : NodeKind) (n : Node) (v : Value), k ≠ .table →
       setattrK k n "type" v
         = ({ data := insertS n.data "@type" v,
              attrs := insertS n.attrs "type" v }, none))
  ∧ (∀ (n : Node) (v : Value),
       alookup (tableSetattr n "type" v).1.data "@type" = some v
       ∧ ((tableSetattr n "type" v).2 = none ↔ vbeq v (.vstr "Table") = true))
  ∧ (∀ (k : NodeKind) (n : Node) (v : Value),
       (alookup (setattrK k n "context" v).1.data "@context").isSome = true)
  ∧ (∀ (n : Node) (v : Value),
       columnSetattr n "context" v
         = ({ data := insertS n.data "@context" v,
              attrs := insertS n.attrs "context" v }, none))
  ∧ (∀ (k : NodeKind) (n : Node) (v : Value) (key : String),
       key = "@id" ∨ key = "@type" ∨ key = "@context" →
       setitemK k n key v = (n, some (.valueError cpErrMsg)))
  ∧ (∀ (k : NodeKind) (n : Node) (v : Value) (name : String) (n₁ : Node),
       name = "id" ∨ name = "type" ∨ name = "context" →
       setattrK k n name v = (n₁, none) →
       setitemK k n name v
         = ({ data := insertS n₁.data name v, attrs := n₁.attrs }, none)) := by
  refine ⟨?_, ?_, ?_, ?_, ?_, ?_, ?_⟩
  · -- id: every kind, unconditional, recorded at @id
    intro k n v
    cases k with
    | table =>
        have h2 : tableSetattr n "id" v
            = ({ data := insertS n.data ("@" ++ "id") v, attrs := n.attrs }, none) := by
          rw [tableSetattr_def,
              setattr_reserved tableValid tableDT runSetter1 n "id" v
                ⟨.plain "@id", "@id"⟩ (by decide) rfl]
          show (({ data := insertS (insertS n.data ("@" ++ "id") v) "@id" v,
                   attrs := n.attrs } : Node), (none : Option PyError)) = _
          rw [at_id_eq, insertS_insertS_same]
        rw [at_id_eq] at h2
        exact ⟨by rw [show setattrK .table = tableSetattr from rfl, h2],
               by rw [show setattrK .table = tableSetattr from rfl, h2]
                  exact alookup_insertS_self _ _ _⟩
    | schema =>
        have h2 : schemaSetattr n "id" v
            = ({ data := insertS n.data ("@" ++ "id") v,
                 attrs := insertS n.attrs "id" v }, none) :=
          setattr_reserved_nodesc schemaValid schemaDT runSetter0 n "id" v
            (by decide) rfl
        rw [at_id_eq] at h2
        exact ⟨by rw [show setattrK .schema = schemaSetattr from rfl, h2],
               by rw [show setattrK .schema = schemaSetattr from rfl, h2]
                  exact alookup_insertS_self _ _ _⟩
    | column =>
        have h2 : columnSetattr n "id" v
            = ({ data := insertS n.data ("@" ++ "id") v,
                 attrs := insertS n.attrs "id" v }, none) :=
          setattr_reserved_nodesc columnValid columnDT runSetter0 n "id" v
            (by decide) rfl
        rw [at_id_eq] at h2
        exact ⟨by rw [show setattrK .column = columnSetattr from rfl, h2],
               by rw [show setattrK .column = columnSetattr from rfl, h2]
                  exact alookup_insertS_self _ _ _⟩
  · -- type on Schema / Column: no setter, unconditional
    intro k n v hk
    cases k with
    | table => exact absurd rfl hk
    | schema =>
        have h2 := setattr_reserved_nodesc schemaValid schemaDT runSetter0 n "type" v
          (by decide) rfl
        rw [at_type_eq] at h2
        exact h2
    | column =>
        have h2 := setattr_reserved_nodesc columnValid columnDT runSetter0 n "type" v
          (by decide) rfl
        rw [at_type_eq] at h2
        exact h2
  · -- type on Table: pre-recorded at @type, accepted iff the value is "Table"
    intro n v
    have hbase := setattr_reserved tableValid tableDT runSetter1 n "type" v
      ⟨.typeTable, "@type"⟩ (by decide) rfl
    by_cases hv : vbeq v (.vstr "Table") = true
    · have h2 : tableSetattr n "type" v
          = ({ data := insertS n.data ("@" ++ "type") v, attrs := n.attrs }, none) := by
        rw [tableSetattr_def, hbase]
        show (match (if vbeq v (.vstr "Table") = true then
                       Except.ok (insertS (insertS n.data ("@" ++ "type") v) "@type" v)
                     else Except.error (PyError.valueError
                       "Type property of Table object must be 'Table'.")) with
              | .ok d' => (({ data := d', attrs := n.attrs } : Node),
                           (none : Option PyError))
              | .error e => ({ data := insertS n.data ("@" ++ "type") v,
                               attrs := n.attrs }, some e)) = _
        rw [if_pos hv, at_type_eq, insertS_insertS_same]
      rw [at_type_eq] at h2
      rw [h2]
      exact ⟨alookup_insertS_self _ _ _, by simp [hv]⟩
    · have h2 : tableSetattr n "type" v
          = ({ data := insertS n.data ("@" ++ "type") v, attrs := n.attrs },
             some (.valueError "Type property of Table object must be 'Table'.")) := by
        rw [tableSetattr_def, hbase]
        show (match (if vbeq v (.vstr "Table") = true then
                       Except.ok (insertS (insertS n.data ("@" ++ "type") v) "@type" v)
                     else Except.error (PyError.valueError
                       "Type property of Table object must be 'Table'.")) with
              | .ok d' => (({ data := d', attrs := n.attrs } : Node),
                           (none : Option PyError))
              | .error e => ({ data := insertS n.data ("@" ++ "type") v,
                               attrs := n.attrs }, some e)) = _
        rw [if_neg hv]
      rw [at_type_eq] at h2
      rw [h2]
      exact ⟨alookup_insertS_self _ _ _, by simp [hv]⟩
  · -- context: some value always ends up under @context
    intro k n v
    cases k with
    | column =>
        have h2 := setattr_reserved_nodesc columnValid columnDT runSetter0 n "context" v
          (by decide) rfl
        rw [at_context_eq] at h2
        rw [show setattrK .column = setattrCore columnValid columnDT runSetter0 from rfl, h2]
        simp [alookup_insertS_self]
    | table =>
        have hbase := setattr_reserved tableValid tableDT runSetter1 n "context" v
          ⟨.contextS, "@context"⟩ (by decide) rfl
        rw [at_context_eq] at hbase
        rw [show setattrK .table = setattrCore tableValid tableDT runSetter1 from rfl, hbase]
        cases hc : contextCoerce v with
        | ok v' =>
            have hr : runSetter1 .contextS (insertS n.data "@context" v) v
                = .ok (insertS (insertS n.data "@context" v) "@context" v') := by
              show (contextCoerce v).map _ = _
              rw [hc]
              rfl
            rw [hr]
            simp [alookup_insertS_self]
        | error e =>
            have hr : runSetter1 .contextS (insertS n.data "@context" v) v
                = .error e := by
              show (contextCoerce v).map _ = _
              rw [hc]
              rfl
            rw [hr]
            simp [alookup_insertS_self]
    | schema =>
        have hbase := setattr_reserved schemaValid schemaDT runSetter0 n "context" v
          ⟨.contextS, "@context"⟩ (by decide) rfl
        rw [at_context_eq] at hbase
        rw [show setattrK .schema = setattrCore schemaValid schemaDT runSetter0 from rfl,
            hbase]
        cases hc : contextCoerce v with
        | ok v' =>
            have hr : runSetter0 .contextS (insertS n.data "@context" v) v
                = .ok (insertS (insertS n.data "@context" v) "@context" v') := by
              show (contextCoerce v).map _ = _
              rw [hc]
              rfl
            rw [hr]
            simp [alookup_insertS_self]
        | error e =>
            have hr : runSetter0 .contextS (insertS n.data "@context" v) v
                = .error e := by
              show (contextCoerce v).map _ = _
              rw [hc]
              rfl
            rw [hr]
            simp [alookup_insertS_self]
  · -- context on Column: unconditional
    intro n v
    have h2 := setattr_reserved_nodesc columnValid columnDT runSetter0 n "context" v
      (by decide) rfl
    rw [at_context_eq] at h2
    exact h2
  · -- the @-prefixed keys through the key view: rejected, node unchanged
    intro k n v key hkey
    rcases hkey with h | h | h <;> subst h <;> cases k <;> rfl
  · -- the bare names id/type/context through the key view
    intro k n v name n₁ hres h
    have hattr : attrOfKey (kindValid k) name = name := by
      rcases hres with h' | h' | h' <;> subst h' <;> cases k <;> rfl
    have h' : setattrCore (kindValid k) (kindDT k) (kindRun k) n name v = (n₁, none) := h
    show setitemCore (kindValid k) (kindDT k) (kindRun k) n name v = _
    unfold setitemCore
    rw [hattr, h']

/-- C4 amended witness: concrete instances — `id` accepted on a table,
`type` rejected on a table for `"NotTable"` yet recorded at `@type`,
`t["@id"]` rejected, `t["id"]` recorded at both `@id` and `id`. -/
theorem C4_amended_witness :
    (setattrK .table ⟨[], []⟩ "id" (.vstr "http://example.org")).2 = none
  ∧ alookup (setattrK .table ⟨[], []⟩ "id"
      (.vstr "http://example.org")).1.data "@id" = some (.vstr "http://example.org")
  ∧ alookup (tableSetattr ⟨[], []⟩ "type" (.vstr "NotTable")).1.data "@type"
      = some (.vstr "NotTable")
  ∧ ¬((tableSetattr ⟨[], []⟩ "type" (.vstr "NotTable")).2 = none)
  ∧ setitemK .schema ⟨[], []⟩ "@id" (.vstr "x")
      = (⟨[], []⟩, some (.valueError cpErrMsg))
  ∧ setitemK .table ⟨[], []⟩ "id" (.vstr "x")
      = (⟨[("@id", .vstr "x"), ("id", .vstr "x")], []⟩, none) := by
  refine ⟨(C4_amended_holds.1 .table ⟨[], []⟩ (.vstr "http://example.org")).1,
          (C4_amended_holds.1 .table ⟨[], []⟩ (.vstr "http://example.org")).2,
          (C4_amended_holds.2.2.1 ⟨[], []⟩ (.vstr "NotTable")).1, ?_,
          C4_amended_holds.2.2.2.2.2.1 .schema ⟨[], []⟩ (.vstr "x") "@id" (.inl rfl),
          ?_⟩
  · intro hnone
    have := ((C4_amended_holds.2.2.1 ⟨[], []⟩ (.vstr "NotTable")).2).mp hnone
    exact absurd this (by decide)
  · exact (C4_amended_holds.2.2.2.2.2.2 .table ⟨[], []⟩ (.vstr "x") "id"
      ⟨[("@id", .vstr "x")], []⟩ (.inl rfl) rfl).trans rfl

/-! ## Absoluteness is preserved by `prefixer` -/

theorem splitColon_eq {l pre post : List Char}
    (h : splitColon l = some (pre, post)) :
    l = pre ++ ':' :: post ∧ ':' ∉ pre := by
  induction l generalizing pre post with
  | nil => simp [splitColon] at h
  | cons c cs ih =>
      by_cases hc : c = ':'
      · subst hc
        simp [splitColon] at h
        obtain ⟨h1, h2⟩ := h
        subst h1; subst h2
        simp
      · simp only [splitColon, if_neg hc] at h
        cases hsc : splitColon cs with
        | none => rw [hsc] at h; simp at h
        | some p =>
            obtain ⟨pre', post'⟩ := p
            rw [hsc] at h
            simp only [Option.map_some', Option.some.injEq, Prod.mk.injEq] at h
            obtain ⟨h1, h2⟩ := h
            obtain ⟨he, hn⟩ := ih hsc
            subst h2
            subst h1
            subst he
            constructor
            · simp
            · intro hmem
              rcases List.mem_cons.mp hmem with h | h
              · exact hc h.symm
              · exact hn h

theorem splitColon_append {pre : List Char} (x : List Char) (h : ':' ∉ pre) :
    splitColon (pre ++ ':' :: x) = some (pre, x) := by
  induction pre with
  | nil => simp [splitColon]
  | cons c cs ih =>
      simp only [List.mem_cons, not_or] at h
      obtain ⟨hc, hcs⟩ := h
      show (if c = ':' then some (([] : List Char), cs ++ ':' :: x)
            else (splitColon (cs ++ ':' :: x)).map (fun p => (c :: p.1, p.2)))
          = some (c :: cs, x)
      rw [if_neg (fun he => hc he.symm), ih hcs]
      rfl

theorem isSchemeChar_ne_us {c : Char} (h : isSchemeChar c = true) : c ≠ '_' := by
  intro he
  subst he
  exact absurd h (by decide)

theorem map_prefChar_of_scheme {pre : List Char} (h : pre.all isSchemeChar = true) :
    pre.map prefChar = pre := by
  induction pre with
  | nil => rfl
  | cons c cs ih =>
      simp only [List.all_cons, Bool.and_eq_true] at h
      have hc : prefChar c = c := by
        unfold prefChar
        rw [if_neg (isSchemeChar_ne_us h.1)]
      simp [hc, ih h.2]

theorem schemeSplitOK_all {pre : List Char} (h : schemeSplitOK pre = true) :
    pre.all isSchemeChar = true := by
  cases pre with
  | nil => exact absurd h (by decide)
  | cons c cs =>
      simp only [schemeSplitOK, Bool.and_eq_true] at h
      exact h.2

theorem schemeSplitOK_alpha {c : Char} {cs : List Char}
    (h : schemeSplitOK (c :: cs) = true) : isAsciiAlpha c = true := by
  simp only [schemeSplitOK, Bool.and_eq_true] at h
  exact h.1

theorem dropScheme_slash (t : List Char) : dropScheme ('/' :: t) = '/' :: t := by
  unfold dropScheme
  cases hsc : splitColon ('/' :: t) with
  | none => rfl
  | some p =>
      obtain ⟨pre, post⟩ := p
      obtain ⟨heq, hnc⟩ := splitColon_eq hsc
      cases pre with
      | nil => simp at heq
      | cons p0 ps =>
          simp only [List.cons_append, List.cons.injEq] at heq
          obtain ⟨hp0, -⟩ := heq
          subst hp0
          show (if schemeSplitOK ('/' :: ps) = true then post else '/' :: t) = '/' :: t
          rw [if_neg (fun hok => absurd (schemeSplitOK_alpha hok) (by decide))]

theorem nlStop_prefChar {c : Char} (h : nlStop c = true) : nlStop (prefChar c) = true := by
  unfold prefChar
  by_cases hc : c = '_'
  · rw [if_pos hc]; decide
  · rw [if_neg hc]; exact h

theorem takeWhile_map_ne_nil {rest : List Char} (h : rest.takeWhile nlStop ≠ []) :
    (rest.map prefChar).takeWhile nlStop ≠ [] := by
  cases rest with
  | nil => simp at h
  | cons c r =>
      by_cases hc : nlStop c = true
      · simp [List.takeWhile, nlStop_prefChar hc]
      · simp only [List.takeWhile] at h
        rw [Bool.not_eq_true] at hc
        rw [hc] at h
        exact absurd rfl h

theorem netlocL_map_of_dropId {l : List Char} (hd : dropScheme l = l)
    (h : netlocCharsL l ≠ []) : netlocCharsL (l.map prefChar) ≠ [] := by
  unfold netlocCharsL at h ⊢
  rw [hd] at h
  split at h
  next _x rest =>
    rw [show (('/' :: '/' :: rest).map prefChar)
          = '/' :: '/' :: rest.map prefChar from rfl,
        dropScheme_slash]
    exact takeWhile_map_ne_nil h
  next => exact absurd rfl h

theorem netlocL_map_prefChar {l : List Char} (h : netlocCharsL l ≠ []) :
    netlocCharsL (l.map prefChar) ≠ [] := by
  cases hsc : splitColon l with
  | none =>
      refine netlocL_map_of_dropId ?_ h
      unfold dropScheme
      rw [hsc]
  | some p =>
      obtain ⟨pre, post⟩ := p
      obtain ⟨heq, hnc⟩ := splitColon_eq hsc
      by_cases hok : schemeSplitOK pre = true
      · have hd : dropScheme l = post := by
          unfold dropScheme
          rw [hsc]
          show (if schemeSplitOK pre = true then post else l) = post
          rw [if_pos hok]
        subst heq
        unfold netlocCharsL at h ⊢
        rw [hd] at h
        split at h
        next rest =>
          have hmap : ((pre ++ ':' :: '/' :: '/' :: rest).map prefChar)
              = pre ++ ':' :: '/' :: '/' :: rest.map prefChar := by
            rw [List.map_append, map_prefChar_of_scheme (schemeSplitOK_all hok)]
            rfl
          rw [hmap]
          have hds : dropScheme (pre ++ ':' :: '/' :: '/' :: rest.map prefChar)
              = '/' :: '/' :: rest.map prefChar := by
            unfold dropScheme
            rw [splitColon_append _ hnc]
            show (if schemeSplitOK pre = true then '/' :: '/' :: rest.map prefChar
                  else pre ++ ':' :: '/' :: '/' :: rest.map prefChar)
                = '/' :: '/' :: rest.map prefChar
            rw [if_pos hok]
          rw [hds]
          exact takeWhile_map_ne_nil h
        next => exact absurd rfl h
      · refine netlocL_map_of_dropId ?_ h
        unfold dropScheme
        rw [hsc]
        show (if schemeSplitOK pre = true then post else l) = l
        rw [if_neg hok]

/-- Replacing every underscore by a colon cannot destroy absoluteness: the
scheme part contains no underscore and the `//`-netloc shape survives the
character map. -/
theorem prefixer_absolute {s : String} (h : is_absolute_uri s = true) :
    is_absolute_uri (prefixer s) = true := by
  unfold is_absolute_uri netlocChars at h ⊢
  rw [show (prefixer s).toList = s.toList.map prefChar from rfl]
  have h' : netlocCharsL s.toList ≠ [] := by
    intro he
    rw [he] at h
    exact absurd h (by decide)
  have := netlocL_map_prefChar h'
  cases hnl : netlocCharsL (s.toList.map prefChar) with
  | nil => exact absurd hnl this
  | cons a l2 => rfl

/-! ## Claim C9 -/

theorem containsStr_all {l : List String} {p : String → Bool} {s : String}
    (hall : l.all p = true) (hc : containsStr l s = true) : p s = true :=
  List.all_eq_true.mp hall s (containsStr_mem hc)

theorem kindValid_nonabs (k : NodeKind) :
    (kindValid k).all (fun s => !(is_absolute_uri s)) = true := by
  cases k <;> decide

theorem kindDT_nonabs (k : NodeKind) :
    (kindDT k).all (fun e => !(is_absolute_uri e.1)) = true := by
  cases k <;> decide

theorem containsStr_valid_of_abs {k : NodeKind} {key : String}
    (habs : is_absolute_uri key = true) :
    containsStr (kindValid k) key = false := by
  cases hc : containsStr (kindValid k) key with
  | false => rfl
  | true =>
      have := containsStr_all (kindValid_nonabs k) hc
      rw [habs] at this
      exact absurd this (by decide)

theorem kindDT_none_of_abs {k : NodeKind} {key : String}
    (habs : is_absolute_uri key = true) :
    alookup (kindDT k) key = none := by
  cases hdt : alookup (kindDT k) key with
  | none => rfl
  | some dsc =>
      have hmem := alookup_some_mem hdt
      have := List.all_eq_true.mp (kindDT_nonabs k) _ hmem
      rw [habs] at this
      exact absurd this (by decide)

theorem prefChar_unprefChar {c : Char} (h : (c == '_') = false) :
    prefChar (unprefChar c) = c := by
  by_cases hc : c = ':'
  · subst hc; decide
  · have h1 : unprefChar c = c := by unfold unprefChar; rw [if_neg hc]
    rw [h1]
    unfold prefChar
    rw [if_neg (by intro he; subst he; simp at h)]

theorem map_pref_unpref {l : List Char} (h : l.all (fun c => !(c == '_')) = true) :
    (l.map unprefChar).map prefChar = l := by
  induction l with
  | nil => rfl
  | cons c cs ih =>
      simp only [List.all_cons, Bool.and_eq_true] at h
      have hc : (c == '_') = false := by
        cases hb : (c == '_') with
        | false => rfl
        | true => rw [hb] at h; simp at h
      simp [prefChar_unprefChar hc, ih h.2]

/-- Canonicalization undoes the attribute translation on keys without
underscores (every canonical `prefix:name` key is of that shape). -/
theorem prefixer_unprefixer {key : String}
    (h : key.toList.all (fun c => !(c == '_')) = true) :
    prefixer (unprefixer key) = key := by
  show String.mk ((key.toList.map unprefChar).map prefChar) = key
  rw [map_pref_unpref h]
  rfl

/-- C9: (i) an absolute key is left unchanged by the key-to-attribute
translation of `__setitem__` instead of having its colons desugared;
(ii) writing such a key through the key view therefore succeeds, stores the
value under the identical un-desugared string (besides the canonicalized
copy the attribute path writes), and the value is readable through
attribute access under that same string; (iii) a non-absolute key outside
the allow-list is translated by `unprefixer`, and for underscore-free keys
(all canonical keys are) the canonicalization `prefixer` is its inverse. -/
theorem C9_key_translation :
    (∀ (k : NodeKind) (key : String), is_absolute_uri key = true →
       attrOfKey (kindValid k) key = key)
  ∧ (∀ (k : NodeKind) (n : Node) (key : String) (v : Value),
       is_absolute_uri key = true →
       setitemK k n key v
         = ({ data := insertS (insertS n.data (prefixer key) v) key v,
              attrs := insertS n.attrs key v }, none)
       ∧ getattrK k
           ({ data := insertS (insertS n.data (prefixer key) v) key v,
              attrs := insertS n.attrs key v }) key = .ok v)
  ∧ (∀ (k : NodeKind) (key : String), is_absolute_uri key = false →
       containsStr (kindValid k) key = false →
       attrOfKey (kindValid k) key = unprefixer key)
  ∧ (∀ key : String, key.toList.all (fun c => !(c == '_')) = true →
       prefixer (unprefixer key) = key) := by
  refine ⟨?_, ?_, ?_, fun key h => prefixer_unprefixer h⟩
  · intro k key habs
    unfold attrOfKey
    by_cases hc : containsStr (kindValid k) key = true
    · rw [if_pos hc]
    · rw [if_neg hc, if_pos habs]
  · intro k n key v habs
    have hcontains : containsStr (kindValid k) key = false := containsStr_valid_of_abs habs
    have hnd : key ≠ "data" := by
      intro he; rw [he] at habs; exact absurd habs (by decide)
    have hnres : ¬(key = "id" ∨ key = "type" ∨ key = "context") := by
      rintro (he | he | he) <;> rw [he] at habs <;> exact absurd habs (by decide)
    have hattr : attrOfKey (kindValid k) key = key := by
      unfold attrOfKey
      rw [if_neg (by simp [hcontains]), if_pos habs]
    have hset : setattrCore (kindValid k) (kindDT k) (kindRun k) n key v
        = ({ data := insertS n.data (prefixer key) v,
             attrs := insertS n.attrs key v }, none) := by
      rw [setattr_unlisted _ _ _ _ _ _ hnd hnres hcontains,
          if_pos (by simp [prefixer_absolute habs])]
    constructor
    · show setitemCore (kindValid k) (kindDT k) (kindRun k) n key v = _
      unfold setitemCore
      rw [hattr, hset]
    · show getattrCore (kindDT k) _ key = _
      unfold getattrCore
      rw [kindDT_none_of_abs habs, alookup_insertS_self]
  · intro k key habs hc
    unfold attrOfKey
    rw [if_neg (by simp [hc]), if_neg (by simp [habs])]

/-- C9 witness: the absolute key `http://example.co.uk` written through the
key view on a table; and the canonical key `dcterms:title` translated to
`dcterms_title` and back. -/
theorem C9_key_translation_witness :
    is_absolute_uri "http://example.co.uk" = true
  ∧ attrOfKey (kindValid .table) "http://example.co.uk" = "http://example.co.uk"
  ∧ setitemK .table ⟨[], []⟩ "http://example.co.uk" (.vstr "example")
      = (⟨[("http://example.co.uk", .vstr "example")],
          [("http://example.co.uk", .vstr "example")]⟩, none)
  ∧ getattrK .table ⟨[("http://example.co.uk", .vstr "example")],
        [("http://example.co.uk", .vstr "example")]⟩ "http://example.co.uk"
      = .ok (.vstr "example")
  ∧ is_absolute_uri "dcterms:title" = false
  ∧ attrOfKey (kindValid .table) "dcterms:title" = unprefixer "dcterms:title"
  ∧ unprefixer "dcterms:title" = "dcterms_title"
  ∧ prefixer (unprefixer "dcterms:title") = "dcterms:title" := by
  refine ⟨by decide, C9_key_translation.1 .table "http://example.co.uk" (by decide),
          ?_, ?_, by decide,
          C9_key_translation.2.2.1 .table "dcterms:title" (by decide) (by decide),
          by decide,
          C9_key_translation.2.2.2 "dcterms:title" (by decide)⟩
  · exact ((C9_key_translation.2.1 .table ⟨[], []⟩ "http://example.co.uk"
      (.vstr "example") (by decide)).1).trans rfl
  · exact (congrArg (fun N => getattrK .table N "http://example.co.uk")
        (show ({ data := insertS (insertS ([] : Store) (prefixer "http://example.co.uk")
                    (Value.vstr "example")) "http://example.co.uk" (Value.vstr "example"),
                 attrs := insertS ([] : Store) "http://example.co.uk"
                    (Value.vstr "example") } : Node)
            = ⟨[("http://example.co.uk", .vstr "example")],
               [("http://example.co.uk", .vstr "example")]⟩ from rfl)).symm.trans
      ((C9_key_translation.2.1 .table ⟨[], []⟩ "http://example.co.uk"
        (.vstr "example") (by decide)).2)

/-! ## View equivalence machinery (claim C2) -/

theorem getattrCore_desc {dt : List (String × Descriptor)} {n : Node} {name : String}
    {dsc : Descriptor} (hdt : alookup dt name = some dsc) :
    getattrCore dt n name
      = (match alookup n.data dsc.getKey with
         | some v => .ok v
         | none => .error (.keyError dsc.getKey)) := by
  unfold getattrCore
  rw [hdt]

theorem getattrCore_nodesc {dt : List (String × Descriptor)} {n : Node} {name : String}
    (hdt : alookup dt name = none) :
    getattrCore dt n name
      = (match alookup n.attrs name with
         | some v => .ok v
         | none => .error (.attributeError name)) := by
  unfold getattrCore
  rw [hdt]

theorem getitemV_eq (n : Node) (key : String) :
    getitemV n key
      = (match alookup n.data key with
         | some v => .ok v
         | none => .error (.keyError key)) := rfl

theorem dtOK (k : NodeKind) :
    (kindDT k).all (dtEntryOK (kindValid k)) = true := by
  cases k <;> decide

theorem dt_facts {valid : List String} {dt : List (String × Descriptor)}
    {name : String} {dsc : Descriptor}
    (hall : dt.all (dtEntryOK valid) = true)
    (hdt : alookup dt name = some dsc) :
    (name = "foreignKeys" ∧ containsStr valid name = true)
    ∨ (dsc.getKey = canonKeyOf valid name
       ∧ wkey dsc.sk = dsc.getKey
       ∧ (name = "id" ∨ name = "type" ∨ name = "context"
          ∨ containsStr valid name = true)
       ∧ name.toList.all (fun c => !(c == '_')) = true) := by
  have hmem := alookup_some_mem hdt
  have he := List.all_eq_true.mp hall _ hmem
  unfold dtEntryOK at he
  simp only [Bool.or_eq_true, Bool.and_eq_true, beq_iff_eq] at he
  rcases he with ⟨h1, h2⟩ | ⟨⟨⟨hg, hw⟩, hrv⟩, hu⟩
  · exact .inl ⟨h1, h2⟩
  · exact .inr ⟨hg, hw, by tauto, hu⟩

/-- After an accepted `__setattr__` of a non-`data`, non-`foreignKeys`
name, the attribute read and the canonical-key read agree. -/
theorem viewAgree_setattr (valid : List String) (dt : List (String × Descriptor))
    (run : SetterKind → Store → Value → Except PyError Store)
    (hall : dt.all (dtEntryOK valid) = true)
    (n : Node) (name : String) (v : Value) (n' : Node)
    (hd : name ≠ "data") (hfk : name ≠ "foreignKeys")
    (h : setattrCore valid dt run n name v = (n', none)) :
    getattrCore dt n' name = getitemV n' (canonKeyOf valid name) := by
  by_cases hres : name = "id" ∨ name = "type" ∨ name = "context"
  · have hcanon : canonKeyOf valid name = "@" ++ name := by
      unfold canonKeyOf
      rw [if_pos hres]
    cases hdt : alookup dt name with
    | some dsc =>
        rw [setattr_reserved valid dt run n name v dsc hres hdt] at h
        have hgk : dsc.getKey = canonKeyOf valid name := by
          rcases dt_facts hall hdt with ⟨h1, -⟩ | ⟨hg, -, -, -⟩
          · exact absurd h1 hfk
          · exact hg
        cases hrun : run dsc.sk (insertS n.data ("@" ++ name) v) v with
        | ok d2 =>
            rw [hrun] at h
            injection h with h1 h2
            subst h1
            rw [getattrCore_desc hdt, getitemV_eq, hgk]
        | error e =>
            rw [hrun] at h
            injection h with h1 h2
            exact absurd h2 (by simp)
    | none =>
        rw [setattr_reserved_nodesc valid dt run n name v hres hdt] at h
        injection h with h1 h2
        subst h1
        rw [getattrCore_nodesc hdt, getitemV_eq, hcanon,
            alookup_insertS_self, alookup_insertS_self]
  · by_cases hval : containsStr valid name = true
    · have hcanon : canonKeyOf valid name = name := by
        unfold canonKeyOf
        rw [if_neg hres, if_pos hval]
      cases hdt : alookup dt name with
      | some dsc =>
          rw [setattr_listed valid dt run n name v dsc hd hres hval hdt] at h
          have hgk : dsc.getKey = canonKeyOf valid name := by
            rcases dt_facts hall hdt with ⟨h1, -⟩ | ⟨hg, -, -, -⟩
            · exact absurd h1 hfk
            · exact hg
          cases hrun : run dsc.sk (insertS n.data name v) v with
          | ok d2 =>
              rw [hrun] at h
              injection h with h1 h2
              subst h1
              rw [getattrCore_desc hdt, getitemV_eq, hgk]
          | error e =>
              rw [hrun] at h
              injection h with h1 h2
              exact absurd h2 (by simp)
      | none =>
          rw [setattr_listed_nodesc valid dt run n name v hd hres hval hdt] at h
          injection h with h1 h2
          subst h1
          rw [getattrCore_nodesc hdt, getitemV_eq, hcanon,
              alookup_insertS_self, alookup_insertS_self]
    · have hvalf : containsStr valid name = false := by
        revert hval
        cases containsStr valid name <;> simp
      have hcanon : canonKeyOf valid name = prefixer name := by
        unfold canonKeyOf
        rw [if_neg hres, if_neg (by simp [hvalf])]
      rw [setattr_unlisted valid dt run n name v hd hres hvalf] at h
      by_cases hacc : (prefixKnown (prefixer name) || is_absolute_uri (prefixer name)) = true
      · rw [if_pos hacc] at h
        injection h with h1 h2
        subst h1
        have hdt : alookup dt name = none := by
          cases hdt : alookup dt name with
          | none => rfl
          | some dsc =>
              rcases dt_facts hall hdt with ⟨-, h2⟩ | ⟨-, -, hrv, -⟩
              · rw [hvalf] at h2
                exact absurd h2 (by decide)
              · rcases hrv with h' | h' | h' | h'
                · exact absurd (.inl h') hres
                · exact absurd (.inr (.inl h')) hres
                · exact absurd (.inr (.inr h')) hres
                · rw [hvalf] at h'
                  exact absurd h' (by decide)
        rw [getattrCore_nodesc hdt, getitemV_eq, hcanon,
            alookup_insertS_self, alookup_insertS_self]
      · rw [if_neg hacc] at h
        injection h with h1 h2
        exact absurd h2 (by simp)

theorem toList_inj {s t : String} (h : s.toList = t.toList) : s = t := by
  cases s with
  | mk d1 =>
      cases t with
      | mk d2 => exact congrArg String.mk h

theorem map_unpref_eq {l l' : List Char} (hm : l.map unprefChar = l')
    (h : l'.all (fun c => !(c == '_')) = true) : l = l' := by
  induction l generalizing l' with
  | nil => subst hm; rfl
  | cons c cs ih =>
      cases l' with
      | nil => simp at hm
      | cons c' cs' =>
          simp only [List.map_cons, List.cons.injEq] at hm
          obtain ⟨h1, h2⟩ := hm
          simp only [List.all_cons, Bool.and_eq_true] at h
          have hc : c = c' := by
            by_cases hcc : c = ':'
            · subst hcc
              rw [show unprefChar ':' = '_' from rfl] at h1
              subst h1
              simp at h
            · rw [show unprefChar c = c from by unfold unprefChar; rw [if_neg hcc]] at h1
              exact h1
          subst hc
          exact congrArg _ (ih h2 h.2)

theorem unprefixer_eq_of_no_us {key t : String} (h : unprefixer key = t)
    (ht : t.toList.all (fun c => !(c == '_')) = true) : key = t := by
  have hm : key.toList.map unprefChar = t.toList := by
    have := congrArg String.toList h
    exact this
  exact toList_inj (map_unpref_eq hm ht)

/-- When the attribute name `__setitem__` computes is known to contain no
underscore, it must be the key itself. -/
theorem attrOfKey_eq_key {valid : List String} {key t : String}
    (h : attrOfKey valid key = t)
    (ht : t.toList.all (fun c => !(c == '_')) = true) : key = t := by
  unfold attrOfKey at h
  by_cases h1 : containsStr valid key = true
  · rw [if_pos h1] at h
    exact h
  · rw [if_neg h1] at h
    by_cases h2 : is_absolute_uri key = true
    · rw [if_pos h2] at h
      exact h
    · rw [if_neg h2] at h
      exact unprefixer_eq_of_no_us h ht

theorem kindValid_nous (k : NodeKind) :
    (kindValid k).all (fun s => s.toList.all (fun c => !(c == '_'))) = true := by
  cases k <;> decide

/-- Every non-materializing setter that succeeds leaves the raw value under
the key it writes; the materializing ones (`contextS`, `tableSchemaS`) may
transform only dict arguments. -/
theorem runSetter0_writes (sk : SetterKind) (d : Store) (w : Value) (d' : Store)
    (h : runSetter0 sk d w = .ok d') :
    ((sk = .contextS ∨ sk = .tableSchemaS) ∧ isVdictB w = true)
    ∨ alookup d' (wkey sk) = some w := by
  cases sk with
  | plain k =>
      injection h with h1
      subst h1
      exact .inr (alookup_insertS_self _ _ _)
  | notes =>
      cases w <;> first
        | (injection h with h1; subst h1; exact .inr (alookup_insertS_self _ _ _))
        | exact absurd (show (Except.error (PyError.valueError
            "notes property of Table object must be a list of strings.")
              : Except PyError Store) = Except.ok d' from h) (by simp)
  | tableDirection =>
      replace h : (if dirOK w = true then
            (Except.ok (insertS d "tableDirection" w) : Except PyError Store)
          else Except.error (PyError.valueError dirMsg)) = Except.ok d' := h
      by_cases hw : dirOK w = true
      · rw [if_pos hw] at h
        injection h with h1
        subst h1
        exact .inr (alookup_insertS_self _ _ _)
      · rw [if_neg hw] at h
        exact absurd h (by simp)
  | typeTable =>
      replace h : (if vbeq w (.vstr "Table") = true then
            (Except.ok (insertS d "@type" w) : Except PyError Store)
          else Except.error (PyError.valueError
            "Type property of Table object must be 'Table'.")) = Except.ok d' := h
      by_cases hw : vbeq w (.vstr "Table") = true
      · rw [if_pos hw] at h
        injection h with h1
        subst h1
        exact .inr (alookup_insertS_self _ _ _)
      · rw [if_neg hw] at h
        exact absurd h (by simp)
  | contextS =>
      cases w with
      | vdict m => exact .inl ⟨.inl rfl, rfl⟩
      | vcontext opts =>
          replace h : Except.ok (insertS d "@context" (Value.vcontext opts))
              = Except.ok d' := h
          injection h with h1
          subst h1
          exact .inr (alookup_insertS_self _ _ _)
      | vstr s =>
          replace h : (Except.error (PyError.valueError
              "Value must be of type Context or dict.") : Except PyError Store)
              = Except.ok d' := h
          exact absurd h (by simp)
      | vbool b =>
          replace h : (Except.error (PyError.valueError
              "Value must be of type Context or dict.") : Except PyError Store)
              = Except.ok d' := h
          exact absurd h (by simp)
      | vnone =>
          replace h : (Except.error (PyError.valueError
              "Value must be of type Context or dict.") : Except PyError Store)
              = Except.ok d' := h
          exact absurd h (by simp)
      | vlist l =>
          replace h : (Except.error (PyError.valueError
              "Value must be of type Context or dict.") : Except PyError Store)
              = Except.ok d' := h
          exact absurd h (by simp)
      | vnode k2 d2 a2 =>
          replace h : (Except.error (PyError.valueError
              "Value must be of type Context or dict.") : Except PyError Store)
              = Except.ok d' := h
          exact absurd h (by simp)
  | columnsS =>
      cases w with
      | vlist l =>
          rw [show runSetter0 .columnsS d (.vlist l)
                = (match alookup d "columns" with
                   | none => Except.error (PyError.keyError "columns")
                   | some cur =>
                       match namesOf cur with
                       | Except.error e => Except.error e
                       | Except.ok names =>
                           match setDupCheck names with
                           | some e => Except.error e
                           | none => Except.ok (insertS d "columns" (.vlist l)))
              from rfl] at h
          cases halo : alookup d "columns" with
          | none =>
              rw [halo] at h
              replace h : (Except.error (PyError.keyError "columns")
                  : Except PyError Store) = Except.ok d' := h
              exact absurd h (by simp)
          | some cur =>
              rw [halo] at h
              replace h : (match namesOf cur with
                           | Except.error e => Except.error e
                           | Except.ok names =>
                               match setDupCheck names with
                               | some e => Except.error e
                               | none => Except.ok (insertS d "columns" (.vlist l)))
                  = Except.ok d' := h
              cases hn : namesOf cur with
              | error e =>
                  rw [hn] at h
                  replace h : (Except.error e : Except PyError Store)
                      = Except.ok d' := h
                  exact absurd h (by simp)
              | ok names =>
                  rw [hn] at h
                  replace h : (match setDupCheck names with
                               | some e => Except.error e
                               | none => Except.ok (insertS d "columns" (.vlist l)))
                      = Except.ok d' := h
                  cases hsd : setDupCheck names with
                  | some e =>
                      rw [hsd] at h
                      replace h : (Except.error e : Except PyError Store)
                          = Except.ok d' := h
                      exact absurd h (by simp)
                  | none =>
                      rw [hsd] at h
                      injection h with h1
                      subst h1
                      exact .inr (alookup_insertS_self _ _ _)
      | vstr s => exact absurd h (by simp [runSetter0])
      | vbool b => exact absurd h (by simp [runSetter0])
      | vnone => exact absurd h (by simp [runSetter0])
      | vdict m => exact absurd h (by simp [runSetter0])
      | vnode k2 d2 a2 => exact absurd h (by simp [runSetter0])
      | vcontext opts => exact absurd h (by simp [runSetter0])
  | nameS =>
      cases w with
      | vstr s =>
          rw [show runSetter0 .nameS d (.vstr s)
                = (match s.toList with
                   | [] => Except.error PyError.indexError
                   | c :: _ =>
                       if c = '_' then
                         Except.error (PyError.valueError
                           "'name' attribute must not begin with an underscore '_'")
                       else Except.ok (insertS d "name" (.vstr s)))
              from rfl] at h
          cases hls : s.toList with
          | nil =>
              rw [hls] at h
              replace h : (Except.error PyError.indexError : Except PyError Store)
                  = Except.ok d' := h
              exact absurd h (by simp)
          | cons c cs =>
              rw [hls] at h
              replace h : (if c = '_' then
                             Except.error (PyError.valueError
                               "'name' attribute must not begin with an underscore '_'")
                           else Except.ok (insertS d "name" (.vstr s)))
                  = Except.ok d' := h
              by_cases hc : c = '_'
              · rw [if_pos hc] at h
                exact absurd h (by simp)
              · rw [if_neg hc] at h
                injection h with h1
                subst h1
                exact .inr (alookup_insertS_self _ _ _)
      | vlist l =>
          cases l with
          | nil =>
              replace h : (Except.error PyError.indexError : Except PyError Store)
                  = Except.ok d' := h
              exact absurd h (by simp)
          | cons x xs =>
              replace h : (if vbeq x (.vstr "_") = true then
                    (Except.error (PyError.valueError
                      "'name' attribute must not begin with an underscore '_'")
                      : Except PyError Store)
                  else Except.ok (insertS d "name" (.vlist (x :: xs))))
                  = Except.ok d' := h
              by_cases hx : vbeq x (.vstr "_") = true
              · rw [if_pos hx] at h
                exact absurd h (by simp)
              · rw [if_neg hx] at h
                injection h with h1
                subst h1
                exact .inr (alookup_insertS_self _ _ _)
      | vbool b => exact absurd h (by simp [runSetter0])
      | vnone => exact absurd h (by simp [runSetter0])
      | vdict m => exact absurd h (by simp [runSetter0])
      | vnode k2 d2 a2 => exact absurd h (by simp [runSetter0])
      | vcontext opts => exact absurd h (by simp [runSetter0])
  | tableSchemaS => exact absurd h (by simp [runSetter0])

theorem runSetter1_writes (sk : SetterKind) (d : Store) (w : Value) (d' : Store)
    (h : runSetter1 sk d w = .ok d') :
    ((sk = .contextS ∨ sk = .tableSchemaS) ∧ isVdictB w = true)
    ∨ alookup d' (wkey sk) = some w := by
  cases sk with
  | tableSchemaS =>
      cases w with
      | vdict m => exact .inl ⟨.inr rfl, rfl⟩
      | vnode k2 d2 a2 =>
          cases k2 with
          | schema =>
              replace h : Except.ok (insertS d "tableSchema" (Value.vnode .schema d2 a2))
                  = Except.ok d' := h
              injection h with h1
              subst h1
              exact .inr (alookup_insertS_self _ _ _)
          | table => exact absurd h (by simp [runSetter1, tableSchemaSet])
          | column => exact absurd h (by simp [runSetter1, tableSchemaSet])
      | vstr s => exact absurd h (by simp [runSetter1, tableSchemaSet])
      | vbool b => exact absurd h (by simp [runSetter1, tableSchemaSet])
      | vnone => exact absurd h (by simp [runSetter1, tableSchemaSet])
      | vlist l => exact absurd h (by simp [runSetter1, tableSchemaSet])
      | vcontext opts => exact absurd h (by simp [runSetter1, tableSchemaSet])
  | plain k => exact runSetter0_writes _ _ _ _ h
  | notes => exact runSetter0_writes _ _ _ _ h
  | tableDirection => exact runSetter0_writes _ _ _ _ h
  | typeTable => exact runSetter0_writes _ _ _ _ h
  | contextS => exact runSetter0_writes _ _ _ _ h
  | columnsS => exact runSetter0_writes _ _ _ _ h
  | nameS => exact runSetter0_writes _ _ _ _ h

/-- Accepted reserved-name `__setattr__` followed by the key write of the
same name: the attribute read sees the written value. -/
theorem viewAgree_setitem_reserved (valid : List String)
    (dt : List (String × Descriptor))
    (run : SetterKind → Store → Value → Except PyError Store)
    (hall : dt.all (dtEntryOK valid) = true)
    (hrunW : ∀ sk d w d', run sk d w = .ok d' →
       ((sk = .contextS ∨ sk = .tableSchemaS) ∧ isVdictB w = true)
       ∨ alookup d' (wkey sk) = some w)
    (n : Node) (a : String) (item : Value) (n1 : Node)
    (hres : a = "id" ∨ a = "type" ∨ a = "context")
    (hafk : a ≠ "foreignKeys")
    (hne : ("@" ++ a : String) ≠ a)
    (hctx2 : ¬(a = "context" ∧ isVdictB item = true))
    (hsa : setattrCore valid dt run n a item = (n1, none)) :
    getattrCore dt { data := insertS n1.data a item, attrs := n1.attrs } a
      = .ok item := by
  have hcanon : canonKeyOf valid a = "@" ++ a := by
    unfold canonKeyOf
    rw [if_pos hres]
  cases hdt : alookup dt a with
  | none =>
      rw [setattr_reserved_nodesc valid dt run n a item hres hdt] at hsa
      injection hsa with hb1 hb2
      subst hb1
      rw [getattrCore_nodesc hdt, alookup_insertS_self]
  | some dsc =>
      rw [setattr_reserved valid dt run n a item dsc hres hdt] at hsa
      rcases dt_facts hall hdt with ⟨hf, -⟩ | ⟨hg, hw, -, -⟩
      · exact absurd hf hafk
      · cases hrun : run dsc.sk (insertS n.data ("@" ++ a) item) item with
        | error e =>
            rw [hrun] at hsa
            injection hsa with hb1 hb2
            exact absurd hb2 (by simp)
        | ok d2 =>
            rw [hrun] at hsa
            injection hsa with hb1 hb2
            subst hb1
            have hgka : dsc.getKey = "@" ++ a := hg.trans hcanon
            rcases hrunW _ _ _ _ hrun with ⟨hsk, hdict⟩ | hlook
            · exfalso
              have hwk : wkey dsc.sk = "@" ++ a := hw.trans hgka
              rcases hsk with hsk | hsk
              · rw [hsk] at hwk
                replace hwk : ("@context" : String) = "@" ++ a := hwk
                rcases hres with ha | ha | ha
                · subst ha; exact absurd hwk (by decide)
                · subst ha; exact absurd hwk (by decide)
                · subst ha; exact hctx2 ⟨rfl, hdict⟩
              · rw [hsk] at hwk
                replace hwk : ("tableSchema" : String) = "@" ++ a := hwk
                rcases hres with ha | ha | ha <;> subst ha <;>
                  exact absurd hwk (by decide)
            · rw [hw.trans hgka] at hlook
              rw [getattrCore_desc hdt, hgka, alookup_insertS_ne _ _ _ _ hne, hlook]

/-- Accepted allow-listed `__setattr__` followed by the key write of the
same name: the attribute read sees the written value. -/
theorem viewAgree_setitem_listed (valid : List String)
    (dt : List (String × Descriptor))
    (run : SetterKind → Store → Value → Except PyError Store)
    (hall : dt.all (dtEntryOK valid) = true)
    (n : Node) (a : String) (item : Value) (n1 : Node)
    (hd' : a ≠ "data")
    (hres : ¬(a = "id" ∨ a = "type" ∨ a = "context"))
    (hval : containsStr valid a = true)
    (hafk : a ≠ "foreignKeys")
    (hsa : setattrCore valid dt run n a item = (n1, none)) :
    getattrCore dt { data := insertS n1.data a item, attrs := n1.attrs } a
      = .ok item := by
  have hcanon : canonKeyOf valid a = a := by
    unfold canonKeyOf
    rw [if_neg hres, if_pos hval]
  cases hdt : alookup dt a with
  | none =>
      rw [setattr_listed_nodesc valid dt run n a item hd' hres hval hdt] at hsa
      injection hsa with hb1 hb2
      subst hb1
      rw [getattrCore_nodesc hdt, alookup_insertS_self]
  | some dsc =>
      rw [setattr_listed valid dt run n a item dsc hd' hres hval hdt] at hsa
      rcases dt_facts hall hdt with ⟨hf, -⟩ | ⟨hg, -, -, -⟩
      · exact absurd hf hafk
      · cases hrun : run dsc.sk (insertS n.data a item) item with
        | error e =>
            rw [hrun] at hsa
            injection hsa with hb1 hb2
            exact absurd hb2 (by simp)
        | ok d2 =>
            rw [hrun] at hsa
            injection hsa with hb1 hb2
            subst hb1
            rw [getattrCore_desc hdt, hg.trans hcanon, alookup_insertS_self]

/-- Accepted extension-property `__setattr__` followed by any key write:
the attribute read goes through the instance attributes and sees the
written value. -/
theorem viewAgree_setitem_unlisted (valid : List String)
    (dt : List (String × Descriptor))
    (run : SetterKind → Store → Value → Except PyError Store)
    (hall : dt.all (dtEntryOK valid) = true)
    (n : Node) (a : String) (item : Value) (n1 : Node) (dd : Store)
    (hd' : a ≠ "data")
    (hres : ¬(a = "id" ∨ a = "type" ∨ a = "context"))
    (hvalf : containsStr valid a = false)
    (hsa : setattrCore valid dt run n a item = (n1, none)) :
    getattrCore dt { data := dd, attrs := n1.attrs } a = .ok item := by
  rw [setattr_unlisted valid dt run n a item hd' hres hvalf] at hsa
  by_cases hacc : (prefixKnown (prefixer a) || is_absolute_uri (prefixer a)) = true
  · rw [if_pos hacc] at hsa
    injection hsa with hb1 hb2
    subst hb1
    have hdt : alookup dt a = none := by
      cases hdt : alookup dt a with
      | none => rfl
      | some dsc =>
          rcases dt_facts hall hdt with ⟨-, h2⟩ | ⟨-, -, hrv, -⟩
          · rw [hvalf] at h2
            exact absurd h2 (by decide)
          · rcases hrv with h' | h' | h' | h'
            · exact absurd (.inl h') hres
            · exact absurd (.inr (.inl h')) hres
            · exact absurd (.inr (.inr h')) hres
            · rw [hvalf] at h'
              exact absurd h' (by decide)
    rw [getattrCore_nodesc hdt, alookup_insertS_self]
  · rw [if_neg hacc] at hsa
    injection hsa with hb1 hb2
    exact absurd hb2 (by simp)

/-- After an accepted `__setitem__` of a key other than `data` and
`foreignKeys`, and other than a raw-dict write under `context`, both the
attribute view (at the attribute name the write resolved to) and the key
view (at the written key) observe exactly the written value. -/
theorem viewAgree_setitem (valid : List String) (dt : List (String × Descriptor))
    (run : SetterKind → Store → Value → Except PyError Store)
    (hall : dt.all (dtEntryOK valid) = true)
    (hrunW : ∀ sk d w d', run sk d w = .ok d' →
       ((sk = .contextS ∨ sk = .tableSchemaS) ∧ isVdictB w = true)
       ∨ alookup d' (wkey sk) = some w)
    (hvu : valid.all (fun s => s.toList.all (fun c => !(c == '_'))) = true)
    (n : Node) (key : String) (item : Value) (n' : Node)
    (hd : key ≠ "data") (hfk : key ≠ "foreignKeys")
    (hctx : ¬(key = "context" ∧ isVdictB item = true))
    (h : setitemCore valid dt run n key item = (n', none)) :
    getattrCore dt n' (attrOfKey valid key) = .ok item
    ∧ getitemV n' key = .ok item := by
  unfold setitemCore at h
  cases hsa : setattrCore valid dt run n (attrOfKey valid key) item with
  | mk n1 oe =>
  rw [hsa] at h
  cases oe with
  | some e =>
      replace h : ((n1, some e) : Node × Option PyError) = (n', none) := h
      injection h with h1 h2
      exact absurd h2 (by simp)
  | none =>
      replace h : (({ data := insertS n1.data key item, attrs := n1.attrs } : Node),
          (none : Option PyError)) = (n', none) := h
      injection h with h1 h2
      subst h1
      refine ⟨?_, by rw [getitemV_eq, alookup_insertS_self]⟩
      by_cases hres : attrOfKey valid key = "id" ∨ attrOfKey valid key = "type"
          ∨ attrOfKey valid key = "context"
      · -- the attribute name is one of the three JSON-LD names, hence the key is too
        rcases hres with ha | ha | ha
        · have hkey : key = "id" := attrOfKey_eq_key ha (by decide)
          subst hkey
          rw [ha] at hsa ⊢
          exact viewAgree_setitem_reserved valid dt run hall hrunW n "id" item n1
            (.inl rfl) (by decide) (by decide)
            (fun hcc => absurd hcc.1 (by decide)) hsa
        · have hkey : key = "type" := attrOfKey_eq_key ha (by decide)
          subst hkey
          rw [ha] at hsa ⊢
          exact viewAgree_setitem_reserved valid dt run hall hrunW n "type" item n1
            (.inr (.inl rfl)) (by decide) (by decide)
            (fun hcc => absurd hcc.1 (by decide)) hsa
        · have hkey : key = "context" := attrOfKey_eq_key ha (by decide)
          subst hkey
          rw [ha] at hsa ⊢
          exact viewAgree_setitem_reserved valid dt run hall hrunW n "context" item n1
            (.inr (.inr rfl)) (by decide) (by decide) hctx hsa
      · by_cases hval : containsStr valid (attrOfKey valid key) = true
        · have hkey : key = attrOfKey valid key :=
            attrOfKey_eq_key rfl (containsStr_all hvu hval)
          rw [← hkey] at hsa hval hres ⊢
          exact viewAgree_setitem_listed valid dt run hall n key item n1
            hd hres hval hfk hsa
        · have hvalf : containsStr valid (attrOfKey valid key) = false := by
            revert hval
            cases containsStr valid (attrOfKey valid key) <;> simp
          have hd'' : attrOfKey valid key ≠ "data" := fun he =>
            hd (attrOfKey_eq_key he (by decide))
          exact viewAgree_setitem_unlisted valid dt run hall n
            (attrOfKey valid key) item n1 (insertS n1.data key item)
            hd'' hres hvalf hsa

theorem kindRun_writes (k : NodeKind) :
    ∀ sk d w d', kindRun k sk d w = .ok d' →
      ((sk = .contextS ∨ sk = .tableSchemaS) ∧ isVdictB w = true)
      ∨ alookup d' (wkey sk) = some w := by
  cases k with
  | table => exact runSetter1_writes
  | schema => exact runSetter0_writes
  | column => exact runSetter0_writes

/-! ## Claim C2 -/

/-- C2 counterexample: on a schema with an empty columns list, the write
`foreignKeys = [vstr "fk"]` is accepted, yet the attribute view reads the
columns entry `[]` while the key view reads the stored foreign-key list —
the two views of the same accepted write disagree. -/
theorem C2_counterexample :
    schemaSetattr ⟨[("columns", .vlist [])], []⟩ "foreignKeys" (.vlist [.vstr "fk"])
      = (⟨[("columns", .vlist []), ("foreignKeys", .vlist [.vstr "fk"])], []⟩, none)
  ∧ getattrK .schema ⟨[("columns", .vlist []), ("foreignKeys", .vlist [.vstr "fk"])], []⟩
      "foreignKeys" = .ok (.vlist [])
  ∧ getitemV ⟨[("columns", .vlist []), ("foreignKeys", .vlist [.vstr "fk"])], []⟩
      "foreignKeys" = .ok (.vlist [.vstr "fk"])
  ∧ getattrK .schema ⟨[("columns", .vlist []), ("foreignKeys", .vlist [.vstr "fk"])], []⟩
        "foreignKeys"
      ≠ getitemV ⟨[("columns", .vlist []), ("foreignKeys", .vlist [.vstr "fk"])], []⟩
        "foreignKeys" := by
  refine ⟨rfl, rfl, rfl, ?_⟩
  intro hcontra
  rw [show getattrK .schema
        ⟨[("columns", .vlist []), ("foreignKeys", .vlist [.vstr "fk"])], []⟩
        "foreignKeys" = Except.ok (Value.vlist []) from rfl,
      show getitemV
        ⟨[("columns", .vlist []), ("foreignKeys", .vlist [.vstr "fk"])], []⟩
        "foreignKeys" = Except.ok (Value.vlist [.vstr "fk"]) from rfl] at hcontra
  injection hcontra with hv
  injection hv with hl
  simp at hl

/-- C2 (amended): after every accepted property write, the attribute view
and the canonical-key view agree, with two exceptions forced by the code:
(i) a schema's `foreignKeys` property, whose getter reads the `columns`
entry instead; (ii) a key-view write of `context` with a raw dict value,
which the setter materializes into a `Context` under `@context` while the
raw dict is recorded under `context`.  Outside (i), an accepted attribute
write makes the attribute read equal the canonical-key read; outside (i)
and (ii), an accepted key write makes both reads return exactly the
written value. -/
theorem C2_amended_holds :
    (∀ (k : NodeKind) (n : Node) (name : String) (v : Value) (n' : Node),
       name ≠ "data" →
       ¬(k = .schema ∧ name = "foreignKeys") →
       setattrK k n name v = (n', none) →
       getattrK k n' name = getitemV n' (canonKeyOf (kindValid k) name))
  ∧ (∀ (k : NodeKind) (n : Node) (key : String) (item : Value) (n' : Node),
       key ≠ "data" →
       ¬(k = .schema ∧ key = "foreignKeys") →
       ¬(key = "context" ∧ isVdictB item = true) →
       setitemK k n key item = (n', none) →
       getattrK k n' (attrOfKey (kindValid k) key) = .ok item
       ∧ getitemV n' key = .ok item) := by
  constructor
  · intro k n name v n' hd hsfk h
    by_cases hfk : name = "foreignKeys"
    · subst hfk
      cases k with
      | schema => exact absurd ⟨rfl, rfl⟩ hsfk
      | table =>
          exfalso
          have h2 : ((n, some (PyError.valueError cpErrMsg)) : Node × Option PyError)
              = (n', none) :=
            (show setattrK .table n "foreignKeys" v
                = (n, some (.valueError cpErrMsg)) from rfl).symm.trans h
          injection h2 with h21 h22
          exact absurd h22 (by simp)
      | column =>
          exfalso
          have h2 : ((n, some (PyError.valueError cpErrMsg)) : Node × Option PyError)
              = (n', none) :=
            (show setattrK .column n "foreignKeys" v
                = (n, some (.valueError cpErrMsg)) from rfl).symm.trans h
          injection h2 with h21 h22
          exact absurd h22 (by simp)
    · exact viewAgree_setattr (kindValid k) (kindDT k) (kindRun k) (dtOK k)
        n name v n' hd hfk h
  · intro k n key item n' hd hsfk hctx h
    by_cases hfk : key = "foreignKeys"
    · subst hfk
      cases k with
      | schema => exact absurd ⟨rfl, rfl⟩ hsfk
      | table =>
          exfalso
          have h2 : ((n, some (PyError.valueError cpErrMsg)) : Node × Option PyError)
              = (n', none) :=
            (show setitemK .table n "foreignKeys" item
                = (n, some (.valueError cpErrMsg)) from rfl).symm.trans h
          injection h2 with h21 h22
          exact absurd h22 (by simp)
      | column =>
          exfalso
          have h2 : ((n, some (PyError.valueError cpErrMsg)) : Node × Option PyError)
              = (n', none) :=
            (show setitemK .column n "foreignKeys" item
                = (n, some (.valueError cpErrMsg)) from rfl).symm.trans h
          injection h2 with h21 h22
          exact absurd h22 (by simp)
    · exact viewAgree_setitem (kindValid k) (kindDT k) (kindRun k) (dtOK k)
        (kindRun_writes k) (kindValid_nous k) n key item n' hd hfk hctx h

/-- C2 amended witness: on a table, the attribute write `dcterms_title`
makes both views agree; the key write `dcterms:example4` stores a value
readable identically through both views. -/
theorem C2_amended_witness :
    setattrK .table ⟨[], []⟩ "dcterms_title" (.vstr "T")
      = (⟨[("dcterms:title", .vstr "T")], [("dcterms_title", .vstr "T")]⟩, none)
  ∧ getattrK .table ⟨[("dcterms:title", .vstr "T")], [("dcterms_title", .vstr "T")]⟩
        "dcterms_title"
      = getitemV ⟨[("dcterms:title", .vstr "T")], [("dcterms_title", .vstr "T")]⟩
        (canonKeyOf (kindValid .table) "dcterms_title")
  ∧ setitemK .table ⟨[], []⟩ "dcterms:example4" (.vstr "E")
      = (⟨[("dcterms:example4", .vstr "E")], [("dcterms_example4", .vstr "E")]⟩, none)
  ∧ getattrK .table ⟨[("dcterms:example4", .vstr "E")],
        [("dcterms_example4", .vstr "E")]⟩
        (attrOfKey (kindValid .table) "dcterms:example4") = .ok (.vstr "E")
  ∧ getitemV ⟨[("dcterms:example4", .vstr "E")], [("dcterms_example4", .vstr "E")]⟩
      "dcterms:example4" = .ok (.vstr "E") := by
  refine ⟨rfl, ?_, rfl, ?_, ?_⟩
  · exact C2_amended_holds.1 .table ⟨[], []⟩ "dcterms_title" (.vstr "T")
      ⟨[("dcterms:title", .vstr "T")], [("dcterms_title", .vstr "T")]⟩
      (by decide) (by simp) rfl
  · exact (C2_amended_holds.2 .table ⟨[], []⟩ "dcterms:example4" (.vstr "E")
      ⟨[("dcterms:example4", .vstr "E")], [("dcterms_example4", .vstr "E")]⟩
      (by decide) (by simp) (by simp [isVdictB]) rfl).1
  · exact (C2_amended_holds.2 .table ⟨[], []⟩ "dcterms:example4" (.vstr "E")
      ⟨[("dcterms:example4", .vstr "E")], [("dcterms_example4", .vstr "E")]⟩
      (by decide) (by simp) (by simp [isVdictB]) rfl).2

end Csvw
